import Mathlib

/-!
# ext/nokogiri/xml_node.c

A shallow embedding of the node binding layer: the Ruby wrappers around libxml2
nodes, the per-document node cache, and the operations of `xml_node.c` that read
or update them.

* libxml2 memory is a partial map from addresses to node records (`Mem`); the
  address `0` is `NULL`.
* Ruby objects created by `Data_Wrap_Struct` live in `State.heap`; a `VALUE.data i`
  is a reference to the `i`-th object, so reference equality of wrappers is
  equality of `VALUE`s.
* libxml2 primitives whose code is not part of this file are fields of `LibXml2`
  and every theorem quantifies over them.
-/

namespace Nokogiri

/-- A machine address; `0` is the null pointer. -/
abbrev Addr := Nat

/-- The `xmlElementType` enumeration of libxml2 (`tree.h`). -/
inductive xmlElementType where
  | XML_ELEMENT_NODE
  | XML_ATTRIBUTE_NODE
  | XML_TEXT_NODE
  | XML_CDATA_SECTION_NODE
  | XML_ENTITY_REF_NODE
  | XML_ENTITY_NODE
  | XML_PI_NODE
  | XML_COMMENT_NODE
  | XML_DOCUMENT_NODE
  | XML_DOCUMENT_TYPE_NODE
  | XML_DOCUMENT_FRAG_NODE
  | XML_NOTATION_NODE
  | XML_HTML_DOCUMENT_NODE
  | XML_DTD_NODE
  | XML_ELEMENT_DECL
  | XML_ATTRIBUTE_DECL
  | XML_ENTITY_DECL
  | XML_NAMESPACE_DECL
  | XML_XINCLUDE_START
  | XML_XINCLUDE_END
  | XML_DOCB_DOCUMENT_NODE
  deriving DecidableEq, Repr

/-- The Ruby classes a `T_DATA` object of this extension can have. `Node` is
`cNokogiriXmlNode`; `Document` is the class of document wrappers, which are built
elsewhere. -/
inductive Klass where
  | Node
  | Element
  | Text
  | Comment
  | Attr
  | CData
  | ProcessingInstruction
  | EntityReference
  | DocumentFragment
  | EntityDeclaration
  | DTD
  | Document
  deriving DecidableEq, Repr

/-- Ruby values, as far as this file handles them. `integer` is what `INT2NUM`
builds, `data i` is a reference to the `i`-th `T_DATA` object of the heap. -/
inductive VALUE where
  | Qnil
  | Qtrue
  | Qfalse
  | integer (i : Int)
  | str (s : String)
  | data (id : Nat)
  deriving DecidableEq, Repr

/-- One `xmlNs` record of a node's `nsDef` list: `pfx` is the `prefix` field
(`none` when it is `NULL`), `href` the namespace URI. -/
structure xmlNs where
  pfx : Option String
  href : String
  deriving DecidableEq, Repr

/-- The fields of `xmlNode` (and of `xmlDoc`, which shares its leading layout)
that `xml_node.c` reads. `nsDef` is the `NULL`-terminated `next` chain of the
node's namespace declarations, `properties` the chain of its attributes as
name and value. -/
structure xmlNode where
  _private : Option VALUE
  type : xmlElementType
  doc : Addr
  parent : Addr
  children : Addr
  last : Addr
  next : Addr
  prev : Addr
  properties : List (String × String)
  nsDef : List xmlNs
  deriving DecidableEq, Repr

/-- Memory owned by libxml2. -/
abbrev Mem := Addr → Option xmlNode

/-- A `T_DATA` object: its class, its `DATA_PTR`, its `@document` instance
variable (`Qnil` until `rb_iv_set`), and how many times the decoration hook ran
on it. -/
structure RData where
  klass : Klass
  data : Addr
  document : VALUE
  decorated : Nat
  deriving DecidableEq, Repr

/-- A Ruby `Hash`, in insertion order. -/
abbrev Hash := List (VALUE × VALUE)

/-- Everything the operations can see: libxml2 memory, the Ruby objects, and the
`node_cache` hash of each document wrapper. -/
structure State where
  mem : Mem
  heap : List RData
  node_cache : VALUE → Hash

/-- Ruby exceptions raised by this file or by the type checks it calls. -/
inductive Exception where
  | TypeError
  | ArgumentError
  | RangeError
  | RuntimeError (msg : String)
  deriving DecidableEq, Repr

/-- How a call ends: it returns `v` in state `s`, it raises `e` leaving state `s`
behind, or the process dies (failed `assert`, dereference of an unmapped
address). -/
inductive Outcome (α : Type) where
  | ok (v : α) (s : State)
  | raise (e : Exception) (s : State)
  | abort

/-- The state a call leaves behind, when the process survives it. -/
def Outcome.state? {α : Type} : Outcome α → Option State
  | .ok _ s => some s
  | .raise _ s => some s
  | .abort => none

/-- The libxml2 primitives called by `xml_node.c` whose code lives in the
library. Each takes the library memory; the ones that change the tree return
the memory they leave next to their result. -/
structure LibXml2 where
  xmlUnlinkNode : Mem → Addr → Mem
  xmlAddChild : Mem → Addr → Addr → Addr × Mem
  xmlAddNextSibling : Mem → Addr → Addr → Addr × Mem
  xmlAddPrevSibling : Mem → Addr → Addr → Addr × Mem
  xmlNewNode : Mem → String → Addr × Mem
  xmlGetProp : Mem → Addr → String → Option String
  xmlNodeDump : Mem → Addr → Addr → Int → Int → String
  htmlNodeDump : Mem → Addr → Addr → String

/-! ## C and Ruby primitives -/

/-- The C conversion `(int)p` of a pointer: the low 32 bits, read as a signed
two's-complement `int`. -/
def int_of_ptr (p : Addr) : Int :=
  if p % 2 ^ 32 < 2 ^ 31 then ((p % 2 ^ 32 : Nat) : Int) else ((p % 2 ^ 32 : Nat) : Int) - 2 ^ 32

/-- `INT2NUM`: the Ruby Integer with the given value. -/
def INT2NUM (i : Int) : VALUE := .integer i

/-- `rb_hash_aref` on a hash with no default: the value stored under `key`, or
`Qnil`. -/
def rb_hash_aref : Hash → VALUE → VALUE
  | [], _ => .Qnil
  | (k, v) :: rest, key => if k = key then v else rb_hash_aref rest key

/-- `rb_hash_aset`: replace the value of an existing key in place, or append a
new entry. -/
def rb_hash_aset : Hash → VALUE → VALUE → Hash
  | [], key, val => [(key, val)]
  | (k, v) :: rest, key, val =>
    if k = key then (k, val) :: rest else (k, v) :: rb_hash_aset rest key val

/-- `Data_Get_Struct`: `Check_Type(obj, T_DATA)` and then `DATA_PTR(obj)`. A
value that is not a `T_DATA` object raises `TypeError`; a reference to no object
is a dead process. -/
def Data_Get_Struct (s : State) (obj : VALUE) : Outcome Addr :=
  match obj with
  | .data id =>
    match s.heap[id]? with
    | some o => .ok o.data s
    | none => .abort
  | _ => .raise .TypeError s

/-- `Data_Wrap_Struct(klass, 0, free, ptr)`: allocate a new `T_DATA` object. -/
def Data_Wrap_Struct (s : State) (klass : Klass) (ptr : Addr) : VALUE × State :=
  (.data s.heap.length,
   { s with heap := s.heap ++ [{ klass := klass, data := ptr, document := .Qnil, decorated := 0 }] })

/-- Update the object a `VALUE` refers to; other values are left alone. -/
def modify_data (s : State) (obj : VALUE) (f : RData → RData) : State :=
  match obj with
  | .data id => { s with heap := s.heap.modify f id }
  | _ => s

/-- `DATA_PTR(obj) = ptr`. -/
def set_DATA_PTR (s : State) (obj : VALUE) (ptr : Addr) : State :=
  modify_data s obj (fun o => { o with data := ptr })

/-- `rb_iv_set(obj, "@document", document)`. -/
def rb_iv_set_document (s : State) (obj : VALUE) (document : VALUE) : State :=
  modify_data s obj (fun o => { o with document := document })

/-- Modelled from the spec: `decorate!` is a Ruby method defined outside this
file. The spec calls it a post-construction decoration hook, an extensibility
point for attaching document-specific behaviour to the wrapper; it is modelled
as touching only the wrapper it is called on, where it records one more run. -/
def decorate_bang (s : State) (obj : VALUE) : State :=
  modify_data s obj (fun o => { o with decorated := o.decorated + 1 })

/-- `DATA_PTR(obj)` read back from a state, for stating results. -/
def DATA_PTR (s : State) (obj : VALUE) : Option Addr :=
  match obj with
  | .data id => (s.heap[id]?).map (fun o => o.data)
  | _ => none

/-! ## `Nokogiri_wrap_xml_node` -/

/-- `Nokogiri_wrap_xml_node(node)`: the three `assert`s, the lookup of
`(int)node` in the document's `node_cache`, and on a miss the `switch` over
`node->type` that picks the class, followed by registration, `@document` and
`decorate!`. -/
def Nokogiri_wrap_xml_node (s : State) (node : Addr) : Outcome VALUE :=
  if node = 0 then .abort else
  match s.mem node with
  | none => .abort
  | some n =>
    if n.doc = 0 then .abort else
    match s.mem n.doc with
    | none => .abort
    | some d =>
      match d._private with
      | none => .abort
      | some document =>
        let index := INT2NUM (int_of_ptr node)
        let node_cache := s.node_cache document
        let rb_node := rb_hash_aref node_cache index
        if rb_node ≠ .Qnil then .ok rb_node s else
        let klass : Klass :=
          match n.type with
          | .XML_TEXT_NODE => .Text
          | .XML_ENTITY_REF_NODE => .EntityReference
          | .XML_COMMENT_NODE => .Comment
          | .XML_DOCUMENT_FRAG_NODE => .DocumentFragment
          | .XML_PI_NODE => .ProcessingInstruction
          | .XML_ELEMENT_NODE => .Element
          | .XML_ATTRIBUTE_NODE => .Attr
          | .XML_ENTITY_DECL => .EntityDeclaration
          | .XML_CDATA_SECTION_NODE => .CData
          | .XML_DTD_NODE => .DTD
          | _ => .Node
        let (rb_node, s1) := Data_Wrap_Struct s klass node
        let s2 : State :=
          { s1 with node_cache := fun d =>
              if d = document then rb_hash_aset node_cache index rb_node else s1.node_cache d }
        let s3 := rb_iv_set_document s2 rb_node document
        let s4 := decorate_bang s3 rb_node
        .ok rb_node s4

/-! ## Structural mutation -/

/-- `add_child(self, child)`: unlink the child, append it under `self`, raise
when libxml2 returns `NULL`, repoint the child wrapper when libxml2 returned a
different node, and wrap the node libxml2 returned. -/
def add_child (lib : LibXml2) (s : State) (self child : VALUE) : Outcome VALUE :=
  match Data_Get_Struct s child with
  | .abort => .abort
  | .raise e s => .raise e s
  | .ok node s =>
    match Data_Get_Struct s self with
    | .abort => .abort
    | .raise e s => .raise e s
    | .ok parent s =>
      let s1 : State := { s with mem := lib.xmlUnlinkNode s.mem node }
      let r := lib.xmlAddChild s1.mem parent node
      let new_child := r.1
      let s2 : State := { s1 with mem := r.2 }
      if new_child = 0 then .raise (.RuntimeError "Could not add new child") s2 else
      let s3 := if new_child ≠ node then set_DATA_PTR s2 child new_child else s2
      Nokogiri_wrap_xml_node s3 new_child

/-- `add_next_sibling(self, rb_node)`. -/
def add_next_sibling (lib : LibXml2) (s : State) (self rb_node : VALUE) : Outcome VALUE :=
  match Data_Get_Struct s self with
  | .abort => .abort
  | .raise e s => .raise e s
  | .ok node s =>
    match Data_Get_Struct s rb_node with
    | .abort => .abort
    | .raise e s => .raise e s
    | .ok _new_sibling s =>
      let r := lib.xmlAddNextSibling s.mem node _new_sibling
      let new_sibling := r.1
      let s1 : State := { s with mem := r.2 }
      if new_sibling = 0 then .raise (.RuntimeError "Could not add next sibling") s1 else
      let s2 := if new_sibling ≠ _new_sibling then set_DATA_PTR s1 rb_node new_sibling else s1
      let s3 := decorate_bang s2 rb_node
      .ok rb_node s3

/-- `Check_Type(obj, T_DATA)`. -/
def Check_Type_T_DATA (s : State) (obj : VALUE) : Outcome Unit :=
  match obj with
  | .data _ => .ok () s
  | _ => .raise .TypeError s

/-- `add_previous_sibling(self, rb_node)`. -/
def add_previous_sibling (lib : LibXml2) (s : State) (self rb_node : VALUE) : Outcome VALUE :=
  match Check_Type_T_DATA s rb_node with
  | .abort => .abort
  | .raise e s => .raise e s
  | .ok _ s =>
    match Data_Get_Struct s self with
    | .abort => .abort
    | .raise e s => .raise e s
    | .ok node s =>
      match Data_Get_Struct s rb_node with
      | .abort => .abort
      | .raise e s => .raise e s
      | .ok sibling s =>
        let r := lib.xmlAddPrevSibling s.mem node sibling
        let new_sibling := r.1
        let s1 : State := { s with mem := r.2 }
        if new_sibling = 0 then .raise (.RuntimeError "Could not add previous sibling") s1 else
        let s2 := if sibling ≠ new_sibling then set_DATA_PTR s1 rb_node new_sibling else s1
        let s3 := decorate_bang s2 rb_node
        .ok rb_node s3

/-- `Node.new(name, document)`: allocate a node, set its `doc`, wrap it. The
optional block receives the finished wrapper and is caller code; it is not part
of this definition. -/
def new (lib : LibXml2) (s : State) (name document : VALUE) : Outcome VALUE :=
  match Data_Get_Struct s document with
  | .abort => .abort
  | .raise e s => .raise e s
  | .ok doc s =>
    match name with
    | .str nm =>
      let r := lib.xmlNewNode s.mem nm
      let node := r.1
      match r.2 node with
      | none => .abort
      | some n =>
        let s1 : State :=
          { s with mem := fun a => if a = node then some { n with doc := doc } else r.2 a }
        Nokogiri_wrap_xml_node s1 node
    | _ => .raise .TypeError s

/-! ## Attribute access -/

/-- `get(self, attribute)`: `Qnil` for a `nil` name or when `xmlGetProp` returns
`NULL`, the property string otherwise. `StringValuePtr` raises `TypeError` on a
value that is not a string. -/
def get (lib : LibXml2) (s : State) (self attribute_name : VALUE) : Outcome VALUE :=
  match Data_Get_Struct s self with
  | .abort => .abort
  | .raise e s => .raise e s
  | .ok node s =>
    if attribute_name = .Qnil then .ok .Qnil s else
    match attribute_name with
    | .str a =>
      match lib.xmlGetProp s.mem node a with
      | none => .ok .Qnil s
      | some propstr => .ok (.str propstr) s
    | _ => .raise .TypeError s

/-! ## Serialization -/

/-- `to_xml(argc, argv, self)`: more than one argument is an `ArgumentError`;
the level defaults to `1` and `Check_Type(level, T_FIXNUM)` raises `TypeError`
on anything but a Fixnum (an Integer of 63 bits on a 64-bit machine); the node
is then dumped by `xmlNodeDump` with indentation level `2` and the level as the
format flag, `NUM2INT` raising `RangeError` on a level outside the range of a C
`int`. -/
def to_xml (lib : LibXml2) (s : State) (argv : List VALUE) (self : VALUE) : Outcome VALUE :=
  match argv with
  | _ :: _ :: _ => .raise .ArgumentError s
  | _ =>
    let level : VALUE := match argv with
      | [] => INT2NUM 1
      | l :: _ => l
    match level with
    | .integer lv =>
      if lv < -(2 ^ 62) ∨ 2 ^ 62 ≤ lv then .raise .TypeError s else
      match Data_Get_Struct s self with
      | .abort => .abort
      | .raise e s => .raise e s
      | .ok node s =>
        match s.mem node with
        | none => .abort
        | some n =>
          if lv < -(2 ^ 31) ∨ 2 ^ 31 ≤ lv then .raise .RangeError s
          else .ok (.str (lib.xmlNodeDump s.mem n.doc node 2 lv)) s
    | _ => .raise .TypeError s

/-- `to_html(self)`: when `node->doc->type` is `XML_DOCUMENT_NODE` call `to_xml`
with no argument, otherwise return what `htmlNodeDump` writes. -/
def to_html (lib : LibXml2) (s : State) (self : VALUE) : Outcome VALUE :=
  match Data_Get_Struct s self with
  | .abort => .abort
  | .raise e s => .raise e s
  | .ok node s =>
    match s.mem node with
    | none => .abort
    | some n =>
      match s.mem n.doc with
      | none => .abort
      | some d =>
        if d.type = .XML_DOCUMENT_NODE then to_xml lib s [] self
        else .ok (.str (lib.htmlNodeDump s.mem n.doc node)) s

/-- `pointer_id(self)`: `INT2NUM((int)(node))`. -/
def pointer_id (s : State) (self : VALUE) : Outcome VALUE :=
  match Data_Get_Struct s self with
  | .abort => .abort
  | .raise e s => .raise e s
  | .ok node s => .ok (INT2NUM (int_of_ptr node)) s

/-! ## Namespace declarations -/

def XMLNS_PREFIX : String := "xmlns"

/-- Length of `"xmlns"` including either the colon or the terminating NUL. -/
def XMLNS_PREFIX_LEN : Nat := 6

def XMLNS_BUFFER_LEN : Nat := 128

/-- `strlen`: the number of bytes before the terminating NUL. -/
def strlen (str : String) : Nat := str.utf8ByteSize

/-- The `size_t` value `keylen` computed for one declaration (64-bit
arithmetic). -/
def keylen (ns : xmlNs) : Nat :=
  (XMLNS_PREFIX_LEN + (match ns.pfx with
    | some p => (strlen p + 1) % 2 ^ 64
    | none => 0)) % 2 ^ 64

/-- Capacity of the buffer `key` points to: `malloc(keylen)` when
`keylen > XMLNS_BUFFER_LEN`, the static `buffer` otherwise. -/
def key_capacity (ns : xmlNs) : Nat :=
  if keylen ns > XMLNS_BUFFER_LEN then keylen ns else XMLNS_BUFFER_LEN

/-- The string `sprintf` writes into `key`: `"%s:%s"` with the prefix, or `"%s"`
without one. -/
def sprintf_key (ns : xmlNs) : String :=
  match ns.pfx with
  | some p => XMLNS_PREFIX ++ ":" ++ p
  | none => XMLNS_PREFIX

/-- Bytes `sprintf` stores through `key`, the terminating NUL included. -/
def key_bytes_written (ns : xmlNs) : Nat := strlen (sprintf_key ns) + 1

/-- Apply `f` to the node stored at `a`, if there is one. -/
def Mem.modify (m : Mem) (a : Addr) (f : xmlNode → xmlNode) : Mem :=
  fun x => if x = a then (m x).map f else m x

/-- Modelled from the spec: `xmlUnlinkNode` is a libxml2 primitive; it detaches
the node from its tree (parent and sibling links cleared) and leaves it a
standalone subtree. -/
def model_xmlUnlinkNode (m : Mem) (cur : Addr) : Mem :=
  match m cur with
  | none => m
  | some c =>
    let m1 := if c.parent ≠ 0 then
        m.modify c.parent (fun p =>
          { p with children := if p.children = cur then c.next else p.children,
                   last := if p.last = cur then c.prev else p.last })
      else m
    let m2 := if c.next ≠ 0 then m1.modify c.next (fun x => { x with prev := c.prev }) else m1
    let m3 := if c.prev ≠ 0 then m2.modify c.prev (fun x => { x with next := c.next }) else m2
    m3.modify cur (fun x => { x with parent := 0, next := 0, prev := 0 })

/-- Modelled from the spec: `xmlAddChild` is a libxml2 primitive. It refuses
(returns `NULL`, tree untouched) a null argument or a node appended to itself;
a text node appended after a text node is coalesced into it, the given node is
freed and the surviving node returned; otherwise the node becomes the last
child and joins the parent's document. -/
def model_xmlAddChild (m : Mem) (parent cur : Addr) : Addr × Mem :=
  if parent = 0 ∨ cur = 0 ∨ parent = cur then (0, m) else
  match m parent, m cur with
  | some p, some c =>
    if c.type = .XML_TEXT_NODE ∧ p.last ≠ 0 ∧ p.last ≠ cur ∧
        (m p.last).map (fun l => l.type) = some .XML_TEXT_NODE then
      (p.last, fun a => if a = cur then none else m a)
    else
      let m1 := m.modify cur
        (fun x => { x with parent := parent, prev := p.last, next := 0, doc := p.doc })
      let m2 := if p.last = 0 then m1.modify parent (fun x => { x with children := cur, last := cur })
        else (m1.modify p.last (fun x => { x with next := cur })).modify parent
          (fun x => { x with last := cur })
      (cur, m2)
  | _, _ => (0, m)

/-- Modelled from the spec: `xmlAddNextSibling` is a libxml2 primitive. It
refuses a null argument or a node inserted next to itself; a text node inserted
after a text node is coalesced into it and freed; otherwise the node is unlinked
and linked in right after `cur`. -/
def model_xmlAddNextSibling (m : Mem) (cur elem : Addr) : Addr × Mem :=
  if cur = 0 ∨ elem = 0 ∨ cur = elem then (0, m) else
  match m cur, m elem with
  | some c, some e =>
    if e.type = .XML_TEXT_NODE ∧ c.type = .XML_TEXT_NODE then
      (cur, fun a => if a = elem then none else model_xmlUnlinkNode m elem a)
    else
      let m0 := model_xmlUnlinkNode m elem
      match m0 cur with
      | none => (0, m)
      | some c0 =>
        let m1 := m0.modify elem (fun x => { x with parent := c0.parent, prev := cur, next := c0.next })
        let m2 := m1.modify cur (fun x => { x with next := elem })
        let m3 := if c0.next ≠ 0 then m2.modify c0.next (fun x => { x with prev := elem })
          else m2.modify c0.parent (fun x => { x with last := elem })
        (elem, m3)
  | _, _ => (0, m)

/-- Modelled from the spec: `xmlAddPrevSibling` is a libxml2 primitive, the
mirror image of `xmlAddNextSibling`. -/
def model_xmlAddPrevSibling (m : Mem) (cur elem : Addr) : Addr × Mem :=
  if cur = 0 ∨ elem = 0 ∨ cur = elem then (0, m) else
  match m cur, m elem with
  | some c, some e =>
    if e.type = .XML_TEXT_NODE ∧ c.type = .XML_TEXT_NODE then
      (cur, fun a => if a = elem then none else model_xmlUnlinkNode m elem a)
    else
      let m0 := model_xmlUnlinkNode m elem
      match m0 cur with
      | none => (0, m)
      | some c0 =>
        let m1 := m0.modify elem (fun x => { x with parent := c0.parent, next := cur, prev := c0.prev })
        let m2 := m1.modify cur (fun x => { x with prev := elem })
        let m3 := if c0.prev ≠ 0 then m2.modify c0.prev (fun x => { x with next := elem })
          else m2.modify c0.parent (fun x => { x with children := elem })
        (elem, m3)
  | _, _ => (0, m)

/-- Modelled from the spec: `xmlNewNode` is a libxml2 primitive that allocates
a standalone element node. The model takes the first free slot of a sixteen-slot
arena and returns `NULL` when the arena is full. -/
def model_xmlNewNode (m : Mem) (_name : String) : Addr × Mem :=
  match (List.range 16).find? (fun i => (m (0x5000 + 16 * i)).isNone) with
  | none => (0, m)
  | some i =>
    (0x5000 + 16 * i, fun a =>
      if a = 0x5000 + 16 * i then
        some { _private := none, type := .XML_ELEMENT_NODE, doc := 0, parent := 0, children := 0,
               last := 0, next := 0, prev := 0, properties := [], nsDef := [] }
      else m a)

/-- Modelled from the spec: `xmlGetProp` is a libxml2 primitive that looks a
property up by name and returns its value, or `NULL` when it is not set. -/
def model_xmlGetProp (m : Mem) (node : Addr) (name : String) : Option String :=
  match m node with
  | none => none
  | some n => (n.properties.find? (fun p => p.1 = name)).map (fun p => p.2)

/-- Modelled from the spec: `xmlNodeDump` is the libxml2 XML serializer, which
is not part of this file. The model renders an element without children as the
empty-element tag `<e/>` and leaves every other node out. -/
def model_xmlNodeDump (m : Mem) (_doc node : Addr) (_level _format : Int) : String :=
  match m node with
  | some n => if n.type = .XML_ELEMENT_NODE ∧ n.children = 0 then "<e/>" else ""
  | none => ""

/-- Modelled from the spec: `htmlNodeDump` is the libxml2 HTML serializer, which
is not part of this file. The model renders an element without children as a
start tag and an end tag, `<e></e>`, and leaves every other node out. -/
def model_htmlNodeDump (m : Mem) (_doc node : Addr) : String :=
  match m node with
  | some n => if n.type = .XML_ELEMENT_NODE ∧ n.children = 0 then "<e></e>" else ""
  | none => ""

/-- The reference library. -/
def model_lib : LibXml2 where
  xmlUnlinkNode := model_xmlUnlinkNode
  xmlAddChild := model_xmlAddChild
  xmlAddNextSibling := model_xmlAddNextSibling
  xmlAddPrevSibling := model_xmlAddPrevSibling
  xmlNewNode := model_xmlNewNode
  xmlGetProp := model_xmlGetProp
  xmlNodeDump := model_xmlNodeDump
  htmlNodeDump := model_htmlNodeDump

/-- A blank node record. -/
def blank_node (t : xmlElementType) (doc : Addr) : xmlNode :=
  { _private := none, type := t, doc := doc, parent := 0, children := 0, last := 0,
    next := 0, prev := 0, properties := [], nsDef := [] }

/-- The document node of the small document below; its wrapper is object `0`. -/
def demo_doc : xmlNode :=
  { blank_node .XML_DOCUMENT_NODE 0x1000 with
    _private := some (.data 0), children := 0x2000, last := 0x2000 }

/-- The root element, with one attribute and two namespace declarations. -/
def demo_root : xmlNode :=
  { blank_node .XML_ELEMENT_NODE 0x1000 with
    parent := 0x1000, children := 0x3000, last := 0x3000,
    properties := [("id", "x1")],
    nsDef := [{ pfx := none, href := "http://default" }, { pfx := some "a", href := "http://a" }] }

/-- The root's only child, a text node. -/
def demo_text : xmlNode :=
  { blank_node .XML_TEXT_NODE 0x1000 with parent := 0x2000 }

/-- Memory of a small XML document: the document at `0x1000`, its root element
at `0x2000`, the root's text child at `0x3000`, and two detached nodes of the
same document, a text node at `0x4000` and an empty element at `0x4100`. -/
def demo_mem : Mem := fun a =>
  if a = 0x1000 then some demo_doc
  else if a = 0x2000 then some demo_root
  else if a = 0x3000 then some demo_text
  else if a = 0x4000 then some (blank_node .XML_TEXT_NODE 0x1000)
  else if a = 0x4100 then some (blank_node .XML_ELEMENT_NODE 0x1000)
  else none

/-- The document above before any node has been wrapped: the heap holds the
document wrapper only and its node cache is empty. -/
def demo_state : State :=
  { mem := demo_mem,
    heap := [{ klass := .Document, data := 0x1000, document := .Qnil, decorated := 0 }],
    node_cache := fun _ => [] }

/-- The same document after its root element, the root's text child, the
detached text node and the detached empty element have been wrapped, as objects
`1`, `2`, `3` and `4`. -/
def demo_wrapped : State :=
  { mem := demo_mem,
    heap := [{ klass := .Document, data := 0x1000, document := .Qnil, decorated := 0 },
             { klass := .Element, data := 0x2000, document := .data 0, decorated := 1 },
             { klass := .Text, data := 0x3000, document := .data 0, decorated := 1 },
             { klass := .Text, data := 0x4000, document := .data 0, decorated := 1 },
             { klass := .Element, data := 0x4100, document := .data 0, decorated := 1 }],
    node_cache := fun d =>
      if d = .data 0 then
        [(.integer 0x2000, .data 1), (.integer 0x3000, .data 2), (.integer 0x4000, .data 3),
         (.integer 0x4100, .data 4)]
      else [] }

/-- The wrapped document on a 64-bit machine, with one more node of the same
document, a comment, at the address `0x100002000`: the root element's address
plus `2 ^ 32`. -/
def wide_state : State :=
  { demo_wrapped with
    mem := fun a =>
      if a = 0x100002000 then some (blank_node .XML_COMMENT_NODE 0x1000) else demo_mem a }

/-- Two wrappers on a 64-bit machine whose nodes lie `2 ^ 32` bytes apart. -/
def wide_pair : State :=
  { mem := wide_state.mem,
    heap := [{ klass := .Element, data := 0x2000, document := .data 0, decorated := 1 },
             { klass := .Comment, data := 0x100002000, document := .data 7, decorated := 1 }],
    node_cache := fun _ => [] }

/-- An HTML document at `0x1000` with an empty element at `0x2000`, both
wrapped, as objects `0` and `1`. -/
def html_state : State :=
  { mem := fun a =>
      if a = 0x1000 then
        some { blank_node .XML_HTML_DOCUMENT_NODE 0x1000 with
               _private := some (.data 0), children := 0x2000, last := 0x2000 }
      else if a = 0x2000 then some { blank_node .XML_ELEMENT_NODE 0x1000 with parent := 0x1000 }
      else none,
    heap := [{ klass := .Document, data := 0x1000, document := .Qnil, decorated := 0 },
             { klass := .Element, data := 0x2000, document := .data 0, decorated := 1 }],
    node_cache := fun d => if d = .data 0 then [(.integer 0x2000, .data 1)] else [] }

/-- Two documents: the small XML document above, and a second XML document at
`0x6000`, whose wrapper is object `1`, with an empty root element at `0x7000`.
Only the two document wrappers exist and both node caches are empty. -/
def two_doc_state : State :=
  { mem := fun a =>
      if a = 0x6000 then
        some { blank_node .XML_DOCUMENT_NODE 0x6000 with
               _private := some (.data 1), children := 0x7000, last := 0x7000 }
      else if a = 0x7000 then some { blank_node .XML_ELEMENT_NODE 0x6000 with parent := 0x6000 }
      else demo_mem a,
    heap := [{ klass := .Document, data := 0x1000, document := .Qnil, decorated := 0 },
             { klass := .Document, data := 0x6000, document := .Qnil, decorated := 0 }],
    node_cache := fun _ => [] }

/-- A declaration whose prefix is 130 bytes long. -/
def long_ns : xmlNs :=
  { pfx := some (String.mk (List.replicate 130 'p')), href := "http://p" }

/-- The value a call returns, when it returns. -/
def Outcome.value? {α : Type} : Outcome α → Option α
  | .ok v _ => some v
  | _ => none

/-- The exception a call raises, when it raises. -/
def Outcome.exception? {α : Type} : Outcome α → Option Exception
  | .raise e _ => some e
  | _ => none

/-! ## Specification-side definitions -/

/-- The variant table as the specification words it: element→Element,
text→Text, comment→Comment, attribute→Attr, CDATA→CData,
processing-instruction→ProcessingInstruction, entity-reference→EntityReference,
document-fragment→DocumentFragment, entity-declaration→EntityDeclaration,
DTD→DTD, default→generic Node. -/
def spec_variant : xmlElementType → Klass
  | .XML_ELEMENT_NODE => .Element
  | .XML_TEXT_NODE => .Text
  | .XML_COMMENT_NODE => .Comment
  | .XML_ATTRIBUTE_NODE => .Attr
  | .XML_CDATA_SECTION_NODE => .CData
  | .XML_PI_NODE => .ProcessingInstruction
  | .XML_ENTITY_REF_NODE => .EntityReference
  | .XML_DOCUMENT_FRAG_NODE => .DocumentFragment
  | .XML_ENTITY_DECL => .EntityDeclaration
  | .XML_DTD_NODE => .DTD
  | _ => .Node

/-- The preconditions asserted by `Nokogiri_wrap_xml_node`: the node is not
null, it is a live node `n` whose document `d` is live and has the wrapper
`document`. -/
structure Wrappable (s : State) (node : Addr) (n d : xmlNode) (document : VALUE) : Prop where
  node_ne : node ≠ 0
  node_at : s.mem node = some n
  doc_ne : n.doc ≠ 0
  doc_at : s.mem n.doc = some d
  doc_private : d._private = some document

/-- The state `Nokogiri_wrap_xml_node` leaves after a cache miss. -/
def miss_state (s : State) (node : Addr) (n : xmlNode) (document : VALUE) : State :=
  { mem := s.mem,
    heap := s.heap ++
      [{ klass := spec_variant n.type, data := node, document := document, decorated := 1 }],
    node_cache := fun d =>
      if d = document then
        rb_hash_aset (s.node_cache document) (INT2NUM (int_of_ptr node)) (.data s.heap.length)
      else s.node_cache d }

/-- The tree links of a node: parent, first and last child, next and previous
sibling. -/
def tree_links (n : xmlNode) : Addr × Addr × Addr × Addr × Addr :=
  (n.parent, n.children, n.last, n.next, n.prev)

/-- Two memories hold the same nodes with the same tree links. -/
def same_links (m m' : Mem) : Prop :=
  ∀ a, (m a).map tree_links = (m' a).map tree_links

/-- A refused `xmlAddChild` (one that returns `NULL`) leaves the tree as it
found it. -/
def RefusalAtomic (lib : LibXml2) : Prop :=
  ∀ m parent cur, (lib.xmlAddChild m parent cur).1 = 0 → (lib.xmlAddChild m parent cur).2 = m

/-- The node is itself a whole-document node: an XML or an HTML document. -/
def is_whole_document (n : xmlNode) : Prop :=
  n.type = .XML_DOCUMENT_NODE ∨ n.type = .XML_HTML_DOCUMENT_NODE

instance (n : xmlNode) : Decidable (is_whole_document n) := by
  unfold is_whole_document
  exact inferInstance

/-- The calls that create or repoint wrappers. -/
inductive Op where
  | new (name document : VALUE)
  | wrap (node : Addr)
  | add_child (self child : VALUE)
  | add_next_sibling (self rb_node : VALUE)
  | add_previous_sibling (self rb_node : VALUE)

/-- The state one call leaves, whether it returns or raises; `none` when the
process dies. -/
def Op.run (lib : LibXml2) (s : State) : Op → Option State
  | .new name document => (Nokogiri.new lib s name document).state?
  | .wrap node => (Nokogiri_wrap_xml_node s node).state?
  | .add_child self child => (Nokogiri.add_child lib s self child).state?
  | .add_next_sibling self rb_node => (Nokogiri.add_next_sibling lib s self rb_node).state?
  | .add_previous_sibling self rb_node =>
    (Nokogiri.add_previous_sibling lib s self rb_node).state?

/-- The state a sequence of calls leaves. -/
def run_ops (lib : LibXml2) : State → List Op → Option State
  | s, [] => some s
  | s, op :: ops =>
    match op.run lib s with
    | none => none
    | some s' => run_ops lib s' ops

/-- The libxml2 primitive of an insertion returned a node other than the one it
was given, that is, it coalesced the inserted node into a neighbour. -/
def Op.coalesces (lib : LibXml2) (s : State) : Op → Bool
  | .add_child self child =>
    match DATA_PTR s self, DATA_PTR s child with
    | some parent, some node =>
      decide ((lib.xmlAddChild (lib.xmlUnlinkNode s.mem node) parent node).1 ≠ 0 ∧
        (lib.xmlAddChild (lib.xmlUnlinkNode s.mem node) parent node).1 ≠ node)
    | _, _ => false
  | .add_next_sibling self rb_node =>
    match DATA_PTR s self, DATA_PTR s rb_node with
    | some node, some sibling =>
      decide ((lib.xmlAddNextSibling s.mem node sibling).1 ≠ 0 ∧
        (lib.xmlAddNextSibling s.mem node sibling).1 ≠ sibling)
    | _, _ => false
  | .add_previous_sibling self rb_node =>
    match DATA_PTR s self, DATA_PTR s rb_node with
    | some node, some sibling =>
      decide ((lib.xmlAddPrevSibling s.mem node sibling).1 ≠ 0 ∧
        (lib.xmlAddPrevSibling s.mem node sibling).1 ≠ sibling)
    | _, _ => false
  | _ => false

/-- No call of the sequence coalesced. -/
def never_coalesces (lib : LibXml2) : State → List Op → Bool
  | _, [] => true
  | s, op :: ops =>
    !(op.coalesces lib s) &&
      match op.run lib s with
      | none => true
      | some s' => never_coalesces lib s' ops

/-- The document wrapper `Nokogiri_wrap_xml_node` reaches from a node:
`node->doc->_private`. -/
def doc_wrapper (s : State) (node : Addr) : Option VALUE :=
  match s.mem node with
  | none => none
  | some n =>
    match s.mem n.doc with
    | none => none
    | some d => d._private

/-- The node is already referenced by a wrapper that the cache of the node's
document does not hold: a Document wrapper, which is built elsewhere, or a
wrapper whose `@document` is another document. -/
def foreign_wrap (s : State) (node : Addr) : Bool :=
  s.heap.any (fun o =>
    decide (o.data = node ∧ (o.klass = .Document ∨ some o.document ≠ doc_wrapper s node)))

/-- The state and the node with which a call reaches `Nokogiri_wrap_xml_node`,
if it does. -/
def Op.wrap_site (lib : LibXml2) (s : State) : Op → Option (State × Addr)
  | .wrap node => some (s, node)
  | .new name document =>
    match DATA_PTR s document, name with
    | some doc, .str nm =>
      match (lib.xmlNewNode s.mem nm).2 (lib.xmlNewNode s.mem nm).1 with
      | some n =>
        some ({ s with mem := fun a =>
                  if a = (lib.xmlNewNode s.mem nm).1 then some { n with doc := doc }
                  else (lib.xmlNewNode s.mem nm).2 a },
              (lib.xmlNewNode s.mem nm).1)
      | none => none
    | _, _ => none
  | .add_child self child =>
    match DATA_PTR s self, DATA_PTR s child with
    | some parent, some node =>
      if (lib.xmlAddChild (lib.xmlUnlinkNode s.mem node) parent node).1 = 0 then none
      else
        some (if (lib.xmlAddChild (lib.xmlUnlinkNode s.mem node) parent node).1 ≠ node then
                set_DATA_PTR
                  { s with mem := (lib.xmlAddChild (lib.xmlUnlinkNode s.mem node) parent node).2 }
                  child (lib.xmlAddChild (lib.xmlUnlinkNode s.mem node) parent node).1
              else
                { s with mem := (lib.xmlAddChild (lib.xmlUnlinkNode s.mem node) parent node).2 },
              (lib.xmlAddChild (lib.xmlUnlinkNode s.mem node) parent node).1)
    | _, _ => none
  | _ => none

/-- The call wraps a node that a Document wrapper or a wrapper of another
document already references. -/
def Op.foreign (lib : LibXml2) (s : State) (op : Op) : Bool :=
  match op.wrap_site lib s with
  | none => false
  | some site => foreign_wrap site.1 site.2

/-- No call of the sequence wrapped such a node. -/
def never_foreign (lib : LibXml2) : State → List Op → Bool
  | _, [] => true
  | s, op :: ops =>
    !(op.foreign lib s) &&
      match op.run lib s with
      | none => true
      | some s' => never_foreign lib s' ops

/-- One wrapper per underlying node: no two distinct objects of the heap have
the same `DATA_PTR`. -/
def NoSharedNode (s : State) : Prop :=
  ∀ (i j : Nat) (oi oj : RData), s.heap[i]? = some oi → s.heap[j]? = some oj →
    oi.data = oj.data → i = j

/-- A state in which no node has been wrapped yet: the heap holds document
wrappers only, one per document, and every node cache is empty. -/
def Initial (s : State) : Prop :=
  (∀ o ∈ s.heap, o.klass = .Document) ∧ (∀ d, s.node_cache d = []) ∧ NoSharedNode s

/-- Every node wrapper's node has an entry in the cache of the wrapper's
document. -/
def Registered (s : State) : Prop :=
  ∀ (i : Nat) (o : RData), s.heap[i]? = some o → o.klass ≠ .Document →
    rb_hash_aref (s.node_cache o.document) (INT2NUM (int_of_ptr o.data)) ≠ .Qnil

/-- The state a sibling insertion leaves when libxml2 returned `r`, with memory
`m`, for the inserted wrapper `rb_node` that referenced `sibling`. -/
def sibling_state (s : State) (rb_node : VALUE) (sibling r : Addr) (m : Mem) : State :=
  decorate_bang
    (if r ≠ sibling then set_DATA_PTR { s with mem := m } rb_node r else { s with mem := m })
    rb_node

/-- A run without coalescing: wrap the root element and the detached text node,
create an element with `Node.new`, insert the text node after the root, and
append the new element to the root. -/
def quiet_run : List Op :=
  [.wrap 0x2000, .wrap 0x4000, .new (.str "b") (.data 0),
   .add_next_sibling (.data 1) (.data 2), .add_child (.data 1) (.data 3)]

/-- The calls of the coalescing run: wrap the root element, its text child and
the detached text node, then append the detached text node to the root. -/
def coalescing_run : List Op :=
  [.wrap 0x2000, .wrap 0x3000, .wrap 0x4000, .add_child (.data 1) (.data 3)]

/-- The calls of the document run: wrap the root element, then its parent, the
document node, as `parent` does. -/
def document_run : List Op :=
  [.wrap 0x2000, .wrap 0x1000]

/-- The calls of the moving run, on two documents: wrap the root element of
each, then append the first root to the second. -/
def move_run : List Op :=
  [.wrap 0x2000, .wrap 0x7000, .add_child (.data 3) (.data 2)]

/-! ## Lemmas on hashes and the heap -/

theorem rb_hash_aref_aset_self (h : Hash) (k v : VALUE) :
    rb_hash_aref (rb_hash_aset h k v) k = v := by
  induction h with
  | nil => simp [rb_hash_aset, rb_hash_aref]
  | cons e rest ih =>
    obtain ⟨k0, v0⟩ := e
    by_cases hk : k0 = k
    · simp [rb_hash_aset, rb_hash_aref, hk]
    · simp [rb_hash_aset, rb_hash_aref, hk, ih]

theorem rb_hash_aref_aset_other (h : Hash) (k k' v : VALUE) (hk : k' ≠ k) :
    rb_hash_aref (rb_hash_aset h k v) k' = rb_hash_aref h k' := by
  induction h with
  | nil => simp [rb_hash_aset, rb_hash_aref, Ne.symm hk]
  | cons e rest ih =>
    obtain ⟨k0, v0⟩ := e
    by_cases h0 : k0 = k
    · subst h0
      simp [rb_hash_aset, rb_hash_aref, Ne.symm hk]
    · by_cases h1 : k0 = k'
      · subst h1
        simp [rb_hash_aset, rb_hash_aref, h0]
      · simp [rb_hash_aset, rb_hash_aref, h0, h1, ih]

theorem modify_append_length {α : Type} (l : List α) (x : α) (f : α → α) :
    (l ++ [x]).modify f l.length = l ++ [f x] := by
  induction l with
  | nil => rfl
  | cons a rest ih => simpa [List.modify] using ih

/-! ## Lemmas on `Nokogiri_wrap_xml_node` -/

theorem wrap_hit (s : State) (node : Addr) (n d : xmlNode) (document : VALUE)
    (hw : Wrappable s node n d document)
    (hhit : rb_hash_aref (s.node_cache document) (INT2NUM (int_of_ptr node)) ≠ .Qnil) :
    Nokogiri_wrap_xml_node s node
      = .ok (rb_hash_aref (s.node_cache document) (INT2NUM (int_of_ptr node))) s := by
  obtain ⟨h1, h2, h3, h4, h5⟩ := hw
  simp [Nokogiri_wrap_xml_node, h1, h2, h3, h4, h5, hhit]

theorem wrap_miss (s : State) (node : Addr) (n d : xmlNode) (document : VALUE)
    (hw : Wrappable s node n d document)
    (hmiss : rb_hash_aref (s.node_cache document) (INT2NUM (int_of_ptr node)) = .Qnil) :
    Nokogiri_wrap_xml_node s node = .ok (.data s.heap.length) (miss_state s node n document) := by
  obtain ⟨h1, h2, h3, h4, h5⟩ := hw
  simp only [Nokogiri_wrap_xml_node, h1, h2, h3, h4, h5, hmiss, if_false, ne_eq, not_true_eq_false,
    Data_Wrap_Struct, rb_iv_set_document, decorate_bang, modify_data, modify_append_length,
    miss_state]
  cases n.type <;> simp [spec_variant, modify_append_length]

theorem wrappable_congr (s s' : State) (node : Addr) (n d : xmlNode) (document : VALUE)
    (hmem : s'.mem = s.mem) (hw : Wrappable s node n d document) :
    Wrappable s' node n d document := by
  obtain ⟨h1, h2, h3, h4, h5⟩ := hw
  exact ⟨h1, by rw [hmem]; exact h2, h3, by rw [hmem]; exact h4, h5⟩

/-- Every successful call is either a cache hit that changes nothing or a cache
miss that ends in `miss_state`. -/
theorem wrap_ok_cases (s : State) (node : Addr) (v : VALUE) (s' : State)
    (h : Nokogiri_wrap_xml_node s node = .ok v s') :
    ∃ n d document, Wrappable s node n d document ∧
      ((rb_hash_aref (s.node_cache document) (INT2NUM (int_of_ptr node)) ≠ .Qnil ∧
          v = rb_hash_aref (s.node_cache document) (INT2NUM (int_of_ptr node)) ∧ s' = s) ∨
       (rb_hash_aref (s.node_cache document) (INT2NUM (int_of_ptr node)) = .Qnil ∧
          v = .data s.heap.length ∧ s' = miss_state s node n document)) := by
  by_cases h1 : node = 0
  · simp [Nokogiri_wrap_xml_node, h1] at h
  cases h2 : s.mem node with
  | none => simp [Nokogiri_wrap_xml_node, h1, h2] at h
  | some n =>
    by_cases h3 : n.doc = 0
    · simp [Nokogiri_wrap_xml_node, h1, h2, h3] at h
    cases h4 : s.mem n.doc with
    | none => simp [Nokogiri_wrap_xml_node, h1, h2, h3, h4] at h
    | some d =>
      cases h5 : d._private with
      | none => simp [Nokogiri_wrap_xml_node, h1, h2, h3, h4, h5] at h
      | some document =>
        have hw : Wrappable s node n d document := ⟨h1, h2, h3, h4, h5⟩
        refine ⟨n, d, document, hw, ?_⟩
        by_cases hhit : rb_hash_aref (s.node_cache document) (INT2NUM (int_of_ptr node)) = .Qnil
        · right
          rw [wrap_miss s node n d document hw hhit] at h
          injection h with hv hs
          exact ⟨hhit, hv.symm, hs.symm⟩
        · left
          rw [wrap_hit s node n d document hw hhit] at h
          injection h with hv hs
          exact ⟨hhit, hv.symm, hs.symm⟩

/-- The call returns whenever its asserted preconditions hold. -/
theorem wrap_returns (s : State) (node : Addr) (n d : xmlNode) (document : VALUE)
    (hw : Wrappable s node n d document) :
    ∃ v s', Nokogiri_wrap_xml_node s node = .ok v s' := by
  by_cases hhit : rb_hash_aref (s.node_cache document) (INT2NUM (int_of_ptr node)) = .Qnil
  · exact ⟨_, _, wrap_miss s node n d document hw hhit⟩
  · exact ⟨_, _, wrap_hit s node n d document hw hhit⟩

/-! ## Lemmas on `DATA_PTR` -/

theorem DATA_PTR_iff (s : State) (obj : VALUE) (a : Addr) :
    DATA_PTR s obj = some a ↔ Data_Get_Struct s obj = .ok a s := by
  cases obj <;> simp [DATA_PTR, Data_Get_Struct]
  rename_i id
  cases h : s.heap[id]? <;> simp

theorem DATA_PTR_is_data (s : State) (obj : VALUE) (a : Addr) (h : DATA_PTR s obj = some a) :
    ∃ id, obj = .data id := by
  cases obj <;> simp [DATA_PTR] at h
  exact ⟨_, rfl⟩

theorem DATA_PTR_set_self (s : State) (obj : VALUE) (a r : Addr) (h : DATA_PTR s obj = some a) :
    DATA_PTR (set_DATA_PTR s obj r) obj = some r := by
  cases obj <;> simp [DATA_PTR] at h
  rename_i id
  obtain ⟨o, ho, _⟩ := h
  simp [DATA_PTR, set_DATA_PTR, modify_data, ho]

theorem DATA_PTR_decorate (s : State) (obj w : VALUE) :
    DATA_PTR (decorate_bang s obj) w = DATA_PTR s w := by
  cases obj <;> cases w <;> simp [DATA_PTR, decorate_bang, modify_data]
  rename_i i j
  by_cases hij : i = j
  · subst hij
    cases h : s.heap[i]? <;> simp [h]
  · simp [List.getElem?_modify_ne _ _ hij]

theorem DATA_PTR_miss_state (s : State) (node : Addr) (n : xmlNode) (document w : VALUE)
    (a : Addr) (h : DATA_PTR s w = some a) :
    DATA_PTR (miss_state s node n document) w = some a := by
  cases w <;> simp [DATA_PTR] at h
  rename_i id
  obtain ⟨o, ho, hoa⟩ := h
  have hlt : id < s.heap.length := by
    by_contra hge
    rw [List.getElem?_eq_none (by omega)] at ho
    cases ho
  simp [DATA_PTR, miss_state, List.getElem?_append_left hlt, ho, hoa]

theorem DATA_PTR_wrap (s s' : State) (node : Addr) (v w : VALUE) (a : Addr)
    (hwrap : Nokogiri_wrap_xml_node s node = .ok v s') (h : DATA_PTR s w = some a) :
    DATA_PTR s' w = some a := by
  obtain ⟨n, d, document, _, hc | hc⟩ := wrap_ok_cases s node v s' hwrap
  · rw [hc.2.2]; exact h
  · rw [hc.2.2]; exact DATA_PTR_miss_state s node n document w a h

/-! ## Theorems on `Nokogiri_wrap_xml_node` -/

/-- C1. Identity stability: for every state and every node that satisfies the
asserted preconditions (it is live and its document has a wrapper), wrapping
the node returns a wrapper `w` and a state `s1`, and wrapping it again in `s1`
returns the same `w` and leaves `s1` as it is: no new object on the heap, the
cache unchanged. -/
theorem wrap_twice_same_wrapper (s : State) (node : Addr) (n d : xmlNode) (document : VALUE)
    (hw : Wrappable s node n d document) :
    ∃ w s1, Nokogiri_wrap_xml_node s node = .ok w s1 ∧
      Nokogiri_wrap_xml_node s1 node = .ok w s1 := by
  by_cases hhit : rb_hash_aref (s.node_cache document) (INT2NUM (int_of_ptr node)) = .Qnil
  · refine ⟨_, _, wrap_miss s node n d document hw hhit, ?_⟩
    have hw1 : Wrappable (miss_state s node n document) node n d document :=
      wrappable_congr s _ node n d document rfl hw
    have hget : rb_hash_aref ((miss_state s node n document).node_cache document)
        (INT2NUM (int_of_ptr node)) = .data s.heap.length := by
      simp [miss_state, rb_hash_aref_aset_self]
    have hne : rb_hash_aref ((miss_state s node n document).node_cache document)
        (INT2NUM (int_of_ptr node)) ≠ .Qnil := by
      rw [hget]; simp
    rw [wrap_hit _ node n d document hw1 hne, hget]
  · exact ⟨_, _, wrap_hit s node n d document hw hhit, wrap_hit s node n d document hw hhit⟩

theorem wrap_twice_same_wrapper_witness :
    Wrappable demo_state 0x3000 demo_text demo_doc (.data 0) ∧
    ∃ w s1, Nokogiri_wrap_xml_node demo_state 0x3000 = .ok w s1 ∧
      Nokogiri_wrap_xml_node s1 0x3000 = .ok w s1 :=
  ⟨⟨by decide, rfl, by decide, rfl, rfl⟩,
   wrap_twice_same_wrapper demo_state 0x3000 demo_text demo_doc (.data 0)
     ⟨by decide, rfl, by decide, rfl, rfl⟩⟩

/-- C2. Variant selection on a cache miss: when the node has no entry in its
document's cache, the call returns a new object whose class is the
specification's variant of the node's type tag (a function of the type tag
alone), whose `DATA_PTR` is the node and whose `@document` is the document
wrapper, appended to the heap, and registered in the cache under `(int)node`. -/
theorem wrap_miss_selects_variant (s : State) (node : Addr) (n d : xmlNode) (document : VALUE)
    (hw : Wrappable s node n d document)
    (hmiss : rb_hash_aref (s.node_cache document) (INT2NUM (int_of_ptr node)) = .Qnil) :
    ∃ s', Nokogiri_wrap_xml_node s node = .ok (.data s.heap.length) s' ∧
      s'.heap = s.heap ++
        [{ klass := spec_variant n.type, data := node, document := document, decorated := 1 }] ∧
      DATA_PTR s' (.data s.heap.length) = some node ∧
      rb_hash_aref (s'.node_cache document) (INT2NUM (int_of_ptr node)) = .data s.heap.length := by
  refine ⟨_, wrap_miss s node n d document hw hmiss, rfl, ?_, ?_⟩
  · simp [DATA_PTR, miss_state]
  · simp [miss_state, rb_hash_aref_aset_self]

theorem wrap_miss_selects_variant_witness :
    Wrappable demo_state 0x3000 demo_text demo_doc (.data 0) ∧
    rb_hash_aref (demo_state.node_cache (.data 0)) (INT2NUM (int_of_ptr 0x3000)) = .Qnil ∧
    ∃ s', Nokogiri_wrap_xml_node demo_state 0x3000 = .ok (.data 1) s' ∧
      s'.heap = demo_state.heap ++
        [{ klass := .Text, data := 0x3000, document := .data 0, decorated := 1 }] ∧
      DATA_PTR s' (.data 1) = some 0x3000 ∧
      rb_hash_aref (s'.node_cache (.data 0)) (INT2NUM (int_of_ptr 0x3000)) = .data 1 :=
  ⟨⟨by decide, rfl, by decide, rfl, rfl⟩, rfl,
   wrap_miss_selects_variant demo_state 0x3000 demo_text demo_doc (.data 0)
     ⟨by decide, rfl, by decide, rfl, rfl⟩ rfl⟩

/-! ## Lemmas on the sibling insertions -/

theorem add_next_sibling_ok (lib : LibXml2) (s : State) (self rb_node : VALUE)
    (node sibling : Addr) (hself : DATA_PTR s self = some node)
    (hsib : DATA_PTR s rb_node = some sibling)
    (hr : (lib.xmlAddNextSibling s.mem node sibling).1 ≠ 0) :
    add_next_sibling lib s self rb_node = .ok rb_node
      (sibling_state s rb_node sibling (lib.xmlAddNextSibling s.mem node sibling).1
        (lib.xmlAddNextSibling s.mem node sibling).2) := by
  have hs := (DATA_PTR_iff s self node).mp hself
  have hn := (DATA_PTR_iff s rb_node sibling).mp hsib
  simp only [add_next_sibling, hs, hn, hr, if_false, sibling_state]

theorem add_next_sibling_raise (lib : LibXml2) (s : State) (self rb_node : VALUE)
    (node sibling : Addr) (hself : DATA_PTR s self = some node)
    (hsib : DATA_PTR s rb_node = some sibling)
    (hr : (lib.xmlAddNextSibling s.mem node sibling).1 = 0) :
    add_next_sibling lib s self rb_node = .raise (.RuntimeError "Could not add next sibling")
      { s with mem := (lib.xmlAddNextSibling s.mem node sibling).2 } := by
  have hs := (DATA_PTR_iff s self node).mp hself
  have hn := (DATA_PTR_iff s rb_node sibling).mp hsib
  simp only [add_next_sibling, hs, hn, hr, if_true]

theorem add_previous_sibling_ok (lib : LibXml2) (s : State) (self rb_node : VALUE)
    (node sibling : Addr) (hself : DATA_PTR s self = some node)
    (hsib : DATA_PTR s rb_node = some sibling)
    (hr : (lib.xmlAddPrevSibling s.mem node sibling).1 ≠ 0) :
    add_previous_sibling lib s self rb_node = .ok rb_node
      (sibling_state s rb_node sibling (lib.xmlAddPrevSibling s.mem node sibling).1
        (lib.xmlAddPrevSibling s.mem node sibling).2) := by
  have hs := (DATA_PTR_iff s self node).mp hself
  have hn := (DATA_PTR_iff s rb_node sibling).mp hsib
  obtain ⟨wid, hwid⟩ := DATA_PTR_is_data s rb_node sibling hsib
  subst hwid
  by_cases hsame : sibling = (lib.xmlAddPrevSibling s.mem node sibling).1
  · have hsame2 : ¬ (lib.xmlAddPrevSibling s.mem node sibling).1 ≠ sibling := by
      rw [← hsame]; simp
    simp only [add_previous_sibling, Check_Type_T_DATA, hs, hn, hr, if_false, sibling_state,
      hsame2]
    rw [if_neg (by rw [← hsame]; simp)]
  · have hsame2 : (lib.xmlAddPrevSibling s.mem node sibling).1 ≠ sibling := Ne.symm hsame
    simp only [add_previous_sibling, Check_Type_T_DATA, hs, hn, hr, if_false, sibling_state]
    rw [if_pos hsame, if_pos hsame2]

theorem add_previous_sibling_raise (lib : LibXml2) (s : State) (self rb_node : VALUE)
    (node sibling : Addr) (hself : DATA_PTR s self = some node)
    (hsib : DATA_PTR s rb_node = some sibling)
    (hr : (lib.xmlAddPrevSibling s.mem node sibling).1 = 0) :
    add_previous_sibling lib s self rb_node
      = .raise (.RuntimeError "Could not add previous sibling")
          { s with mem := (lib.xmlAddPrevSibling s.mem node sibling).2 } := by
  have hs := (DATA_PTR_iff s self node).mp hself
  have hn := (DATA_PTR_iff s rb_node sibling).mp hsib
  obtain ⟨wid, hwid⟩ := DATA_PTR_is_data s rb_node sibling hsib
  subst hwid
  simp only [add_previous_sibling, Check_Type_T_DATA, hs, hn, hr, if_true]

theorem DATA_PTR_sibling_state (s : State) (rb_node : VALUE) (sibling r : Addr) (m : Mem)
    (hsib : DATA_PTR s rb_node = some sibling) :
    DATA_PTR (sibling_state s rb_node sibling r m) rb_node = some r := by
  rw [sibling_state, DATA_PTR_decorate]
  by_cases hsame : r = sibling
  · rw [if_neg (by simp [hsame]), hsame]
    exact hsib
  · rw [if_pos hsame]
    exact DATA_PTR_set_self _ rb_node sibling _ hsib

/-! ## Theorems on insertion -/

/-- C4. Coalescing repoint: for `add_child`, `add_next_sibling` and
`add_previous_sibling`, for every receiver wrapper and every inserted wrapper
`w`, whenever the libxml2 insertion primitive returns a non-null node `r` the
call returns and afterwards `DATA_PTR(w)` is `r`, whether or not `r` is the
node `w` referenced before. For `add_child`, which wraps `r` before returning,
`r` has to satisfy the preconditions asserted by `Nokogiri_wrap_xml_node`. -/
theorem insertion_repoints_wrapper (lib : LibXml2) (s : State) (self w : VALUE)
    (recv node : Addr) (hself : DATA_PTR s self = some recv) (hw : DATA_PTR s w = some node) :
    (∀ n d document,
        (lib.xmlAddChild (lib.xmlUnlinkNode s.mem node) recv node).1 ≠ 0 →
        Wrappable { s with mem := (lib.xmlAddChild (lib.xmlUnlinkNode s.mem node) recv node).2 }
          (lib.xmlAddChild (lib.xmlUnlinkNode s.mem node) recv node).1 n d document →
        ∃ v s', add_child lib s self w = .ok v s' ∧
          DATA_PTR s' w = some (lib.xmlAddChild (lib.xmlUnlinkNode s.mem node) recv node).1) ∧
    ((lib.xmlAddNextSibling s.mem recv node).1 ≠ 0 →
        ∃ s', add_next_sibling lib s self w = .ok w s' ∧
          DATA_PTR s' w = some (lib.xmlAddNextSibling s.mem recv node).1) ∧
    ((lib.xmlAddPrevSibling s.mem recv node).1 ≠ 0 →
        ∃ s', add_previous_sibling lib s self w = .ok w s' ∧
          DATA_PTR s' w = some (lib.xmlAddPrevSibling s.mem recv node).1) := by
  have hs := (DATA_PTR_iff s self recv).mp hself
  have hn := (DATA_PTR_iff s w node).mp hw
  obtain ⟨wid, hwid⟩ := DATA_PTR_is_data s w node hw
  refine ⟨?_, ?_, ?_⟩
  · intro n d document hr hwrap
    by_cases hsame : (lib.xmlAddChild (lib.xmlUnlinkNode s.mem node) recv node).1 = node
    · obtain ⟨v, s', hv⟩ := wrap_returns _ _ n d document hwrap
      have hnode0 : node ≠ 0 := by rw [← hsame]; exact hr
      refine ⟨v, s', ?_, ?_⟩
      · simp only [add_child, hs, hn, hsame, hnode0, if_false, ne_eq, not_true_eq_false]
        rw [hsame] at hv
        simpa using hv
      · refine DATA_PTR_wrap _ s' _ v w _ hv ?_
        rw [hsame]
        exact hw
    · have hwrap2 : Wrappable
          (set_DATA_PTR { s with mem := (lib.xmlAddChild (lib.xmlUnlinkNode s.mem node) recv node).2 }
            w (lib.xmlAddChild (lib.xmlUnlinkNode s.mem node) recv node).1)
          (lib.xmlAddChild (lib.xmlUnlinkNode s.mem node) recv node).1 n d document := by
        refine wrappable_congr _ _ _ n d document ?_ hwrap
        subst hwid
        rfl
      obtain ⟨v, s', hv⟩ := wrap_returns _ _ n d document hwrap2
      refine ⟨v, s', ?_, ?_⟩
      · simp only [add_child, hs, hn, hr, hsame, if_false, if_true, ne_eq, not_false_eq_true]
        exact hv
      · refine DATA_PTR_wrap _ s' _ v w _ hv ?_
        exact DATA_PTR_set_self _ w node _ hw
  · intro hr
    exact ⟨_, add_next_sibling_ok lib s self w recv node hself hw hr,
      DATA_PTR_sibling_state s w node _ _ hw⟩
  · intro hr
    exact ⟨_, add_previous_sibling_ok lib s self w recv node hself hw hr,
      DATA_PTR_sibling_state s w node _ _ hw⟩

theorem insertion_repoints_wrapper_witness :
    (DATA_PTR demo_wrapped (.data 1) = some 0x2000 ∧
      DATA_PTR demo_wrapped (.data 3) = some 0x4000 ∧
      ∃ v s', add_child model_lib demo_wrapped (.data 1) (.data 3) = .ok v s' ∧
        DATA_PTR s' (.data 3) = some 0x3000) ∧
    (DATA_PTR demo_wrapped (.data 2) = some 0x3000 ∧
      (∃ s', add_next_sibling model_lib demo_wrapped (.data 2) (.data 3) = .ok (.data 3) s' ∧
        DATA_PTR s' (.data 3) = some 0x3000) ∧
      (∃ s', add_previous_sibling model_lib demo_wrapped (.data 2) (.data 3) = .ok (.data 3) s' ∧
        DATA_PTR s' (.data 3) = some 0x3000)) :=
  ⟨⟨rfl, rfl,
    (insertion_repoints_wrapper model_lib demo_wrapped (.data 1) (.data 3) 0x2000 0x4000
      rfl rfl).1 demo_text demo_doc (.data 0) (by decide)
      ⟨by decide, by decide, by decide, by decide, rfl⟩⟩,
   ⟨rfl,
    (insertion_repoints_wrapper model_lib demo_wrapped (.data 2) (.data 3) 0x3000 0x4000
      rfl rfl).2.1 (by decide),
    (insertion_repoints_wrapper model_lib demo_wrapped (.data 2) (.data 3) 0x3000 0x4000
      rfl rfl).2.2 (by decide)⟩⟩

/-! ## Theorems on a rejected `add_child` -/

theorem add_child_raise (lib : LibXml2) (s : State) (self child : VALUE) (parent node : Addr)
    (hself : DATA_PTR s self = some parent) (hchild : DATA_PTR s child = some node)
    (hr : (lib.xmlAddChild (lib.xmlUnlinkNode s.mem node) parent node).1 = 0) :
    add_child lib s self child = .raise (.RuntimeError "Could not add new child")
      { s with mem := (lib.xmlAddChild (lib.xmlUnlinkNode s.mem node) parent node).2 } := by
  have hs := (DATA_PTR_iff s self parent).mp hself
  have hn := (DATA_PTR_iff s child node).mp hchild
  simp only [add_child, hs, hn, hr, if_true]

theorem model_lib_refusal_atomic : RefusalAtomic model_lib := by
  intro m parent cur h
  simp only [model_lib, model_xmlAddChild] at h ⊢
  by_cases h0 : parent = 0 ∨ cur = 0 ∨ parent = cur
  · rw [if_pos h0]
  · rw [if_neg h0] at h ⊢
    have hcur : cur ≠ 0 := fun hc => h0 (Or.inr (Or.inl hc))
    cases hp : m parent with
    | none => rfl
    | some p =>
      cases hc : m cur with
      | none => rfl
      | some c =>
        rw [hp, hc] at h
        simp only at h
        split at h
        · rename_i hco
          exact absurd h hco.2.1
        · exact absurd h hcur

/-- C5, refuted as stated: the reference library refuses to append a node to
itself and a refusal of its `xmlAddChild` leaves the tree untouched, yet
`add_child` of the text node `0x3000` to itself raises after the node has been
unlinked, so its parent link is gone. -/
theorem add_child_rejected_changes_links :
    ¬ (∀ (lib : LibXml2) (s : State) (self child : VALUE) (parent node : Addr),
        RefusalAtomic lib →
        DATA_PTR s self = some parent → DATA_PTR s child = some node →
        (lib.xmlAddChild (lib.xmlUnlinkNode s.mem node) parent node).1 = 0 →
        ∃ e s', add_child lib s self child = .raise e s' ∧ same_links s.mem s'.mem) := by
  intro h
  obtain ⟨e, s', hrun, hlinks⟩ :=
    h model_lib demo_wrapped (.data 2) (.data 2) 0x3000 0x3000 model_lib_refusal_atomic
      rfl rfl (by decide)
  rw [add_child_raise model_lib demo_wrapped (.data 2) (.data 2) 0x3000 0x3000 rfl rfl
    (by decide)] at hrun
  injection hrun with _ hs
  subst hs
  have h3 := hlinks 0x3000
  revert h3
  decide

/-- C5, amended: when libxml2 refuses the append, `add_child` raises
`RuntimeError`, no wrapper and no cache is changed, and the tree is the one
`xmlUnlinkNode(child)` followed by the refused `xmlAddChild` left; with a
library whose refusal changes nothing, it is exactly the tree after the child
was unlinked. -/
theorem add_child_rejected_state (lib : LibXml2) (s : State) (self child : VALUE)
    (parent node : Addr)
    (hself : DATA_PTR s self = some parent) (hchild : DATA_PTR s child = some node)
    (hr : (lib.xmlAddChild (lib.xmlUnlinkNode s.mem node) parent node).1 = 0) :
    ∃ s', add_child lib s self child = .raise (.RuntimeError "Could not add new child") s' ∧
      s'.heap = s.heap ∧ s'.node_cache = s.node_cache ∧
      s'.mem = (lib.xmlAddChild (lib.xmlUnlinkNode s.mem node) parent node).2 ∧
      (RefusalAtomic lib → s'.mem = lib.xmlUnlinkNode s.mem node) :=
  ⟨_, add_child_raise lib s self child parent node hself hchild hr, rfl, rfl, rfl,
    fun hat => hat _ _ _ hr⟩

theorem add_child_rejected_state_witness :
    DATA_PTR demo_wrapped (.data 2) = some 0x3000 ∧
    (model_lib.xmlAddChild (model_lib.xmlUnlinkNode demo_wrapped.mem 0x3000) 0x3000 0x3000).1 = 0 ∧
    ∃ s', add_child model_lib demo_wrapped (.data 2) (.data 2)
        = .raise (.RuntimeError "Could not add new child") s' ∧
      s'.heap = demo_wrapped.heap ∧ s'.node_cache = demo_wrapped.node_cache ∧
      s'.mem = (model_lib.xmlAddChild (model_lib.xmlUnlinkNode demo_wrapped.mem 0x3000)
        0x3000 0x3000).2 ∧
      (RefusalAtomic model_lib → s'.mem = model_lib.xmlUnlinkNode demo_wrapped.mem 0x3000) :=
  ⟨rfl, by decide,
   add_child_rejected_state model_lib demo_wrapped (.data 2) (.data 2) 0x3000 0x3000 rfl rfl
     (by decide)⟩

/-! ## Absent results and errors -/

theorem get_nil (lib : LibXml2) (s : State) (self : VALUE) (node : Addr)
    (hself : DATA_PTR s self = some node) : get lib s self .Qnil = .ok .Qnil s := by
  have hs := (DATA_PTR_iff s self node).mp hself
  simp only [get, hs, if_true]

theorem get_str (lib : LibXml2) (s : State) (self : VALUE) (node : Addr) (name : String)
    (hself : DATA_PTR s self = some node) :
    get lib s self (.str name) =
      match lib.xmlGetProp s.mem node name with
      | none => .ok .Qnil s
      | some propstr => .ok (.str propstr) s := by
  have hs := (DATA_PTR_iff s self node).mp hself
  simp only [get, hs]
  rw [if_neg (by simp)]

/-- C6. Absent versus error: on a wrapper, `get` returns `Qnil` without raising
for a `nil` name and for a name `xmlGetProp` finds no value for, and returns the
value as a string otherwise; `add_next_sibling` and `add_previous_sibling` on
two wrappers raise exactly when the libxml2 primitive returns `NULL`, and
otherwise return the sibling wrapper they were given, which is not `Qnil`. -/
theorem absent_versus_error (lib : LibXml2) (s : State) (self : VALUE) (node : Addr)
    (hself : DATA_PTR s self = some node) :
    get lib s self .Qnil = .ok .Qnil s ∧
    (∀ name, lib.xmlGetProp s.mem node name = none → get lib s self (.str name) = .ok .Qnil s) ∧
    (∀ name val, lib.xmlGetProp s.mem node name = some val →
      get lib s self (.str name) = .ok (.str val) s) ∧
    (∀ rb_node sibling, DATA_PTR s rb_node = some sibling →
      rb_node ≠ .Qnil ∧
      ((add_next_sibling lib s self rb_node).exception?.isSome ↔
        (lib.xmlAddNextSibling s.mem node sibling).1 = 0) ∧
      ((lib.xmlAddNextSibling s.mem node sibling).1 ≠ 0 →
        (add_next_sibling lib s self rb_node).value? = some rb_node) ∧
      ((add_previous_sibling lib s self rb_node).exception?.isSome ↔
        (lib.xmlAddPrevSibling s.mem node sibling).1 = 0) ∧
      ((lib.xmlAddPrevSibling s.mem node sibling).1 ≠ 0 →
        (add_previous_sibling lib s self rb_node).value? = some rb_node)) := by
  refine ⟨get_nil lib s self node hself, ?_, ?_, ?_⟩
  · intro name hnone
    rw [get_str lib s self node name hself, hnone]
  · intro name val hsome
    rw [get_str lib s self node name hself, hsome]
  · intro rb_node sibling hsib
    refine ⟨?_, ?_, ?_, ?_, ?_⟩
    · obtain ⟨id, hid⟩ := DATA_PTR_is_data s rb_node sibling hsib
      rw [hid]
      simp
    · by_cases hr : (lib.xmlAddNextSibling s.mem node sibling).1 = 0
      · rw [add_next_sibling_raise lib s self rb_node node sibling hself hsib hr]
        simp [Outcome.exception?, hr]
      · rw [add_next_sibling_ok lib s self rb_node node sibling hself hsib hr]
        simp [Outcome.exception?, hr]
    · intro hr
      rw [add_next_sibling_ok lib s self rb_node node sibling hself hsib hr]
      rfl
    · by_cases hr : (lib.xmlAddPrevSibling s.mem node sibling).1 = 0
      · rw [add_previous_sibling_raise lib s self rb_node node sibling hself hsib hr]
        simp [Outcome.exception?, hr]
      · rw [add_previous_sibling_ok lib s self rb_node node sibling hself hsib hr]
        simp [Outcome.exception?, hr]
    · intro hr
      rw [add_previous_sibling_ok lib s self rb_node node sibling hself hsib hr]
      rfl

theorem absent_versus_error_witness :
    DATA_PTR demo_wrapped (.data 1) = some 0x2000 ∧
    get model_lib demo_wrapped (.data 1) .Qnil = .ok .Qnil demo_wrapped ∧
    get model_lib demo_wrapped (.data 1) (.str "class") = .ok .Qnil demo_wrapped ∧
    get model_lib demo_wrapped (.data 1) (.str "id") = .ok (.str "x1") demo_wrapped ∧
    (add_next_sibling model_lib demo_wrapped (.data 1) (.data 1)).exception?.isSome ∧
    (add_next_sibling model_lib demo_wrapped (.data 1) (.data 3)).value? = some (.data 3) ∧
    (add_previous_sibling model_lib demo_wrapped (.data 1) (.data 1)).exception?.isSome ∧
    (add_previous_sibling model_lib demo_wrapped (.data 1) (.data 3)).value? = some (.data 3) :=
  have h := absent_versus_error model_lib demo_wrapped (.data 1) 0x2000 rfl
  ⟨rfl, h.1, h.2.1 "class" (by decide), h.2.2.1 "id" "x1" (by decide),
   ((h.2.2.2 (.data 1) 0x2000 rfl).2.1).mpr (by decide),
   (h.2.2.2 (.data 3) 0x4000 rfl).2.2.1 (by decide),
   ((h.2.2.2 (.data 1) 0x2000 rfl).2.2.2.1).mpr (by decide),
   (h.2.2.2 (.data 3) 0x4000 rfl).2.2.2.2 (by decide)⟩

/-! ## Namespace declarations -/

theorem strlen_append (a b : String) : strlen (a ++ b) = strlen a + strlen b := by
  cases a
  cases b
  show String.utf8ByteSize ⟨_ ++ _⟩ = _
  simp [strlen, String.utf8ByteSize_mk, String.utf8Len_append]

/-- C10. Key buffer bound: for every declaration, with or without a prefix, whose
prefix string and the 128-byte static buffer both fit in the 64-bit address
space, the bytes `sprintf` writes for the key, terminating NUL included, are
exactly `keylen`, and never more than the capacity of the buffer chosen:
`XMLNS_BUFFER_LEN` when `keylen ≤ XMLNS_BUFFER_LEN`, `keylen` otherwise. -/
theorem key_buffer_bound (ns : xmlNs)
    (hfit : ∀ p, ns.pfx = some p → strlen p + 1 + XMLNS_BUFFER_LEN ≤ 2 ^ 64) :
    key_bytes_written ns = keylen ns ∧
    key_bytes_written ns ≤ key_capacity ns ∧
    (keylen ns ≤ XMLNS_BUFFER_LEN → key_capacity ns = XMLNS_BUFFER_LEN) ∧
    (XMLNS_BUFFER_LEN < keylen ns → key_capacity ns = keylen ns) := by
  have hw : key_bytes_written ns = keylen ns := by
    cases h : ns.pfx with
    | none =>
      simp only [key_bytes_written, keylen, sprintf_key, h, XMLNS_PREFIX, XMLNS_PREFIX_LEN]
      decide
    | some p =>
      have hp := hfit p h
      simp only [XMLNS_BUFFER_LEN] at hp
      simp only [key_bytes_written, keylen, sprintf_key, h, XMLNS_PREFIX, XMLNS_PREFIX_LEN,
        strlen_append]
      have h5 : strlen "xmlns" = 5 := by decide
      have h1 : strlen ":" = 1 := by decide
      rw [h5, h1, Nat.mod_eq_of_lt (by omega), Nat.mod_eq_of_lt (by omega)]
      omega
  refine ⟨hw, ?_, ?_, ?_⟩
  · rw [hw]
    unfold key_capacity
    split <;> omega
  · intro hle
    unfold key_capacity
    rw [if_neg (by omega)]
  · intro hlt
    unfold key_capacity
    rw [if_pos hlt]

set_option maxRecDepth 8000 in
theorem key_buffer_bound_witness :
    ((∀ p, (xmlNs.mk (some "a") "http://a").pfx = some p →
        strlen p + 1 + XMLNS_BUFFER_LEN ≤ 2 ^ 64) ∧
      key_bytes_written (xmlNs.mk (some "a") "http://a") = 8 ∧
      key_capacity (xmlNs.mk (some "a") "http://a") = 128) ∧
    ((∀ p, long_ns.pfx = some p → strlen p + 1 + XMLNS_BUFFER_LEN ≤ 2 ^ 64) ∧
      key_bytes_written long_ns = 137 ∧ key_capacity long_ns = 137) ∧
    key_bytes_written (xmlNs.mk none "http://default") = 6 :=
  have hfit : ∀ p, (xmlNs.mk (some "a") "http://a").pfx = some p →
      strlen p + 1 + XMLNS_BUFFER_LEN ≤ 2 ^ 64 := by
    intro p hp
    injection hp with hp
    subst hp
    decide
  have hlong : ∀ p, long_ns.pfx = some p → strlen p + 1 + XMLNS_BUFFER_LEN ≤ 2 ^ 64 := by
    intro p hp
    injection hp with hp
    subst hp
    decide
  have h := key_buffer_bound (xmlNs.mk (some "a") "http://a") hfit
  have hl := key_buffer_bound long_ns hlong
  have hn := key_buffer_bound (xmlNs.mk none "http://default") (fun p hp => by cases hp)
  ⟨⟨hfit, by rw [h.1]; decide, h.2.2.1 (by decide)⟩,
   ⟨hlong, by rw [hl.1]; decide, by rw [hl.2.2.2 (by decide)]; decide⟩,
   by rw [hn.1]; decide⟩

/-! ## Serialization as HTML -/

theorem to_xml_default (lib : LibXml2) (s : State) (self : VALUE) (node : Addr) (n : xmlNode)
    (hself : DATA_PTR s self = some node) (hn : s.mem node = some n) :
    to_xml lib s [] self = .ok (.str (lib.xmlNodeDump s.mem n.doc node 2 1)) s := by
  have hs := (DATA_PTR_iff s self node).mp hself
  have h62 : ¬ ((1 : Int) < -(2 ^ 62) ∨ (2 : Int) ^ 62 ≤ 1) := by decide
  have h31 : ¬ ((1 : Int) < -(2 ^ 31) ∨ (2 : Int) ^ 31 ≤ 1) := by decide
  simp only [to_xml, INT2NUM, hs, hn, h62, h31, if_false]

/-- C8, refuted as stated: the detached empty element of the XML document is
not a whole-document node, yet `to_html` on its wrapper returns the XML
rendering `<e/>` written by `xmlNodeDump`, not the HTML rendering `<e></e>`
written by `htmlNodeDump`. -/
theorem to_html_of_xml_element_is_xml :
    ¬ (∀ (lib : LibXml2) (s : State) (self : VALUE) (node : Addr) (n : xmlNode),
        DATA_PTR s self = some node → s.mem node = some n → ¬ is_whole_document n →
        (to_html lib s self).value? = some (.str (lib.htmlNodeDump s.mem n.doc node))) := by
  intro h
  have h1 := h model_lib demo_wrapped (.data 4) 0x4100 (blank_node .XML_ELEMENT_NODE 0x1000)
    rfl rfl (by decide)
  revert h1
  decide

/-- C8, amended: `to_html` delegates to `to_xml` with its default level exactly
when the document the node belongs to has type `XML_DOCUMENT_NODE`, whatever
the type of the node itself; for a node of any other document it returns what
`htmlNodeDump` renders for the node. -/
theorem to_html_dispatch (lib : LibXml2) (s : State) (self : VALUE) (node : Addr)
    (n d : xmlNode) (hself : DATA_PTR s self = some node) (hn : s.mem node = some n)
    (hd : s.mem n.doc = some d) :
    (d.type = .XML_DOCUMENT_NODE →
      to_html lib s self = to_xml lib s [] self ∧
      to_html lib s self = .ok (.str (lib.xmlNodeDump s.mem n.doc node 2 1)) s) ∧
    (d.type ≠ .XML_DOCUMENT_NODE →
      to_html lib s self = .ok (.str (lib.htmlNodeDump s.mem n.doc node)) s) := by
  have hs := (DATA_PTR_iff s self node).mp hself
  constructor
  · intro ht
    have hx : to_html lib s self = to_xml lib s [] self := by
      simp only [to_html, hs, hn, hd, ht, if_true]
    exact ⟨hx, by rw [hx, to_xml_default lib s self node n hself hn]⟩
  · intro ht
    simp only [to_html, hs, hn, hd, ht, if_false]

theorem to_html_dispatch_witness :
    (DATA_PTR demo_wrapped (.data 4) = some 0x4100 ∧
      demo_wrapped.mem 0x4100 = some (blank_node .XML_ELEMENT_NODE 0x1000) ∧
      demo_wrapped.mem (blank_node .XML_ELEMENT_NODE 0x1000).doc = some demo_doc ∧
      demo_doc.type = .XML_DOCUMENT_NODE ∧
      to_html model_lib demo_wrapped (.data 4) = to_xml model_lib demo_wrapped [] (.data 4) ∧
      to_html model_lib demo_wrapped (.data 4) = .ok (.str "<e/>") demo_wrapped) ∧
    (DATA_PTR html_state (.data 1) = some 0x2000 ∧
      to_html model_lib html_state (.data 1) = .ok (.str "<e></e>") html_state) :=
  ⟨⟨rfl, rfl, rfl, rfl,
    (to_html_dispatch model_lib demo_wrapped (.data 4) 0x4100
      (blank_node .XML_ELEMENT_NODE 0x1000) demo_doc rfl rfl rfl).1 rfl⟩,
   ⟨rfl,
    (to_html_dispatch model_lib html_state (.data 1) 0x2000
      { blank_node .XML_ELEMENT_NODE 0x1000 with parent := 0x1000 }
      { blank_node .XML_HTML_DOCUMENT_NODE 0x1000 with
        _private := some (.data 0), children := 0x2000, last := 0x2000 }
      rfl rfl rfl).2 (by decide)⟩⟩

/-! ## The identity token -/

theorem int_of_ptr_add_two_pow_32 (a : Addr) : int_of_ptr (a + 2 ^ 32) = int_of_ptr a := by
  simp [int_of_ptr]

theorem int_of_ptr_injective_32 (a b : Nat) (ha : a < 2 ^ 32) (hb : b < 2 ^ 32)
    (h : int_of_ptr a = int_of_ptr b) : a = b := by
  unfold int_of_ptr at h
  rw [Nat.mod_eq_of_lt ha, Nat.mod_eq_of_lt hb] at h
  have e32 : (2 : Int) ^ 32 = 4294967296 := by norm_num
  have n32 : (2 : Nat) ^ 32 = 4294967296 := by norm_num
  have n31 : (2 : Nat) ^ 31 = 2147483648 := by norm_num
  rw [e32, n31] at h
  rw [n32] at ha hb
  split at h <;> split at h <;> omega

/-- C9, the code at the failing input: on a 64-bit machine two wrappers whose
nodes lie at `0x2000` and `0x100002000` get the same `pointer_id`, and wrapping
the node at `0x100002000` returns the wrapper cached for the node at
`0x2000`. -/
theorem pointer_key_collides :
    DATA_PTR wide_pair (.data 0) = some 0x2000 ∧
    DATA_PTR wide_pair (.data 1) = some 0x100002000 ∧
    (pointer_id wide_pair (.data 0)).value? = some (.integer 0x2000) ∧
    (pointer_id wide_pair (.data 1)).value? = some (.integer 0x2000) ∧
    (Nokogiri_wrap_xml_node wide_state 0x100002000).value? = some (.data 1) ∧
    DATA_PTR wide_state (.data 1) = some 0x2000 := by
  decide

/-! ## One wrapper per node -/

theorem invariant_initial (s : State) (h : Initial s) : NoSharedNode s ∧ Registered s := by
  refine ⟨h.2.2, ?_⟩
  intro i o hi hk
  exact absurd (h.1 o (List.getElem?_mem hi)) hk

theorem invariant_congr (s s' : State) (hh : s'.heap = s.heap)
    (hc : s'.node_cache = s.node_cache) (h : NoSharedNode s ∧ Registered s) :
    NoSharedNode s' ∧ Registered s' := by
  unfold NoSharedNode Registered
  rw [hh, hc]
  exact h

theorem getElem?_modify_core (l : List RData) (f : RData → RData)
    (hf : ∀ o, (f o).klass = o.klass ∧ (f o).data = o.data ∧ (f o).document = o.document)
    (id i : Nat) (o' : RData) (h : (l.modify f id)[i]? = some o') :
    ∃ o, l[i]? = some o ∧ o'.klass = o.klass ∧ o'.data = o.data ∧ o'.document = o.document := by
  rw [List.getElem?_modify] at h
  cases hl : l[i]? with
  | none =>
    rw [hl] at h
    cases h
  | some o =>
    rw [hl] at h
    simp only [Option.map_eq_map, Option.map_some', Option.some.injEq] at h
    refine ⟨o, rfl, ?_⟩
    by_cases hid : id = i
    · rw [if_pos hid] at h
      rw [← h]
      exact hf o
    · rw [if_neg hid] at h
      rw [← h]
      exact ⟨rfl, rfl, rfl⟩

theorem invariant_decorate (s : State) (v : VALUE) (h : NoSharedNode s ∧ Registered s) :
    NoSharedNode (decorate_bang s v) ∧ Registered (decorate_bang s v) := by
  cases v with
  | data id =>
    have hf : ∀ o : RData,
        ({ o with decorated := o.decorated + 1 } : RData).klass = o.klass ∧
        ({ o with decorated := o.decorated + 1 } : RData).data = o.data ∧
        ({ o with decorated := o.decorated + 1 } : RData).document = o.document :=
      fun _ => ⟨rfl, rfl, rfl⟩
    constructor
    · intro i j oi oj hi hj hdata
      obtain ⟨pi, hpi, _, h2, _⟩ := getElem?_modify_core s.heap _ hf id i oi hi
      obtain ⟨pj, hpj, _, h5, _⟩ := getElem?_modify_core s.heap _ hf id j oj hj
      exact h.1 i j pi pj hpi hpj (by rw [← h2, ← h5]; exact hdata)
    · intro i o hi hk
      obtain ⟨po, hpo, h1, h2, h3⟩ := getElem?_modify_core s.heap _ hf id i o hi
      have := h.2 i po hpo (by rw [← h1]; exact hk)
      rw [h2, h3]
      exact this
  | _ => exact h

theorem getElem?_append_singleton {α : Type} (l : List α) (x o : α) (i : Nat)
    (h : (l ++ [x])[i]? = some o) : l[i]? = some o ∨ (i = l.length ∧ o = x) := by
  by_cases hlt : i < l.length
  · rw [List.getElem?_append_left hlt] at h
    exact Or.inl h
  · rw [List.getElem?_append_right (by omega)] at h
    by_cases heq : i = l.length
    · rw [heq] at h
      simp at h
      exact Or.inr ⟨heq, h.symm⟩
    · have hpos : i - l.length = (i - l.length - 1) + 1 := by omega
      rw [hpos] at h
      simp at h

/-- What `foreign_wrap` being false says: every wrapper that references the node
is a node wrapper of the node's document. -/
theorem not_foreign_wrap (s : State) (node : Addr) (n d : xmlNode) (document : VALUE)
    (hw : Wrappable s node n d document) (hnf : foreign_wrap s node = false)
    (i : Nat) (o : RData) (hi : s.heap[i]? = some o) (hdata : o.data = node) :
    o.klass ≠ .Document ∧ o.document = document := by
  have hdoc : doc_wrapper s node = some document := by
    simp only [doc_wrapper, hw.node_at, hw.doc_at, hw.doc_private]
  have hall := List.any_eq_false.mp hnf o (List.getElem?_mem hi)
  simp only [decide_eq_true_eq, hdata, true_and, hdoc, ne_eq, Option.some.injEq, not_or,
    not_not] at hall
  exact hall

theorem invariant_miss (s : State) (node : Addr) (n : xmlNode) (document : VALUE)
    (hmiss : rb_hash_aref (s.node_cache document) (INT2NUM (int_of_ptr node)) = .Qnil)
    (hnf : ∀ (i : Nat) (o : RData), s.heap[i]? = some o → o.data = node →
      o.klass ≠ .Document ∧ o.document = document)
    (h : NoSharedNode s ∧ Registered s) :
    NoSharedNode (miss_state s node n document) ∧ Registered (miss_state s node n document) := by
  constructor
  · intro i j oi oj hi hj hdata
    rcases getElem?_append_singleton _ _ _ _ hi with h1 | ⟨h1, h1'⟩
    · rcases getElem?_append_singleton _ _ _ _ hj with h2 | ⟨_, h2'⟩
      · exact h.1 i j oi oj h1 h2 hdata
      · exfalso
        have hoi : oi.data = node := by rw [hdata, h2']
        obtain ⟨hk, hd⟩ := hnf i oi h1 hoi
        have hreg := h.2 i oi h1 hk
        rw [hd, hoi] at hreg
        exact hreg hmiss
    · rcases getElem?_append_singleton _ _ _ _ hj with h2 | ⟨h2, _⟩
      · exfalso
        have hoj : oj.data = node := by rw [← hdata, h1']
        obtain ⟨hk, hd⟩ := hnf j oj h2 hoj
        have hreg := h.2 j oj h2 hk
        rw [hd, hoj] at hreg
        exact hreg hmiss
      · rw [h1, h2]
  · intro i o hi hk
    show rb_hash_aref
      (if o.document = document then
        rb_hash_aset (s.node_cache document) (INT2NUM (int_of_ptr node)) (.data s.heap.length)
      else s.node_cache o.document) (INT2NUM (int_of_ptr o.data)) ≠ .Qnil
    rcases getElem?_append_singleton _ _ _ _ hi with h1 | ⟨_, h1'⟩
    · have hreg := h.2 i o h1 hk
      by_cases hd : o.document = document
      · rw [if_pos hd]
        by_cases hkey : INT2NUM (int_of_ptr o.data) = INT2NUM (int_of_ptr node)
        · rw [hkey, rb_hash_aref_aset_self]
          simp
        · rw [rb_hash_aref_aset_other _ _ _ _ hkey, ← hd]
          exact hreg
      · rw [if_neg hd]
        exact hreg
    · rw [h1']
      simp [rb_hash_aref_aset_self]

theorem wrap_never_raises (s : State) (node : Addr) (e : Exception) (s' : State) :
    Nokogiri_wrap_xml_node s node ≠ .raise e s' := by
  by_cases h1 : node = 0
  · simp [Nokogiri_wrap_xml_node, h1]
  cases h2 : s.mem node with
  | none => simp [Nokogiri_wrap_xml_node, h1, h2]
  | some n =>
    by_cases h3 : n.doc = 0
    · simp [Nokogiri_wrap_xml_node, h1, h2, h3]
    cases h4 : s.mem n.doc with
    | none => simp [Nokogiri_wrap_xml_node, h1, h2, h3, h4]
    | some d =>
      cases h5 : d._private with
      | none => simp [Nokogiri_wrap_xml_node, h1, h2, h3, h4, h5]
      | some document =>
        obtain ⟨v, s1, hv⟩ := wrap_returns s node n d document ⟨h1, h2, h3, h4, h5⟩
        rw [hv]
        simp

theorem invariant_wrap (s : State) (node : Addr) (s' : State)
    (h : NoSharedNode s ∧ Registered s) (hnf : foreign_wrap s node = false)
    (hrun : (Nokogiri_wrap_xml_node s node).state? = some s') :
    NoSharedNode s' ∧ Registered s' := by
  cases hres : Nokogiri_wrap_xml_node s node with
  | abort =>
    rw [hres] at hrun
    cases hrun
  | raise e s1 => exact absurd hres (wrap_never_raises s node e s1)
  | ok v s1 =>
    rw [hres] at hrun
    injection hrun with hrun
    subst hrun
    obtain ⟨n, d, document, hw, hc | hc⟩ := wrap_ok_cases s node v s1 hres
    · rw [hc.2.2]
      exact h
    · rw [hc.2.2]
      exact invariant_miss s node n document hc.1
        (fun i o hi hd => not_foreign_wrap s node n d document hw hnf i o hi hd) h

theorem Data_Get_Struct_cases (s : State) (v : VALUE) :
    (∃ a, DATA_PTR s v = some a) ∨ Data_Get_Struct s v = .abort ∨
      Data_Get_Struct s v = .raise .TypeError s := by
  cases v with
  | data id =>
    cases h : s.heap[id]? with
    | none => exact Or.inr (Or.inl (by simp [Data_Get_Struct, h]))
    | some o => exact Or.inl ⟨o.data, by simp [DATA_PTR, h]⟩
  | _ => exact Or.inr (Or.inr rfl)

theorem add_child_same (lib : LibXml2) (s : State) (self child : VALUE) (parent node : Addr)
    (hself : DATA_PTR s self = some parent) (hchild : DATA_PTR s child = some node)
    (hr : (lib.xmlAddChild (lib.xmlUnlinkNode s.mem node) parent node).1 = node)
    (h0 : node ≠ 0) :
    add_child lib s self child = Nokogiri_wrap_xml_node
      { s with mem := (lib.xmlAddChild (lib.xmlUnlinkNode s.mem node) parent node).2 } node := by
  have hs := (DATA_PTR_iff s self parent).mp hself
  have hn := (DATA_PTR_iff s child node).mp hchild
  simp only [add_child, hs, hn, hr, h0, if_false, ne_eq, not_true_eq_false]

theorem invariant_add_child (lib : LibXml2) (s : State) (self child : VALUE) (s' : State)
    (h : NoSharedNode s ∧ Registered s)
    (hnc : (Op.add_child self child).coalesces lib s = false)
    (hnf : (Op.add_child self child).foreign lib s = false)
    (hrun : (add_child lib s self child).state? = some s') :
    NoSharedNode s' ∧ Registered s' := by
  rcases Data_Get_Struct_cases s child with ⟨node, hchild⟩ | hc | hc
  · rcases Data_Get_Struct_cases s self with ⟨parent, hself⟩ | hp | hp
    · simp only [Op.coalesces, hself, hchild, decide_eq_false_iff_not, not_and, ne_eq,
        not_not] at hnc
      by_cases hr : (lib.xmlAddChild (lib.xmlUnlinkNode s.mem node) parent node).1 = 0
      · rw [add_child_raise lib s self child parent node hself hchild hr] at hrun
        injection hrun with hrun
        subst hrun
        exact invariant_congr s _ rfl rfl h
      · have hsame := hnc hr
        have h0 : node ≠ 0 := by rw [← hsame]; exact hr
        rw [add_child_same lib s self child parent node hself hchild hsame h0] at hrun
        simp only [Op.foreign, Op.wrap_site, hself, hchild, hsame, h0, if_false, ne_eq,
          not_true_eq_false] at hnf
        refine invariant_wrap _ node s' ?_ hnf hrun
        exact invariant_congr s _ rfl rfl h
    · have hn := (DATA_PTR_iff s child node).mp hchild
      simp only [add_child, hn, hp, Outcome.state?] at hrun
      cases hrun
    · have hn := (DATA_PTR_iff s child node).mp hchild
      simp only [add_child, hn, hp, Outcome.state?] at hrun
      injection hrun with hrun
      subst hrun
      exact h
  · simp only [add_child, hc, Outcome.state?] at hrun
    cases hrun
  · simp only [add_child, hc, Outcome.state?] at hrun
    injection hrun with hrun
    subst hrun
    exact h

theorem invariant_sibling_state (s : State) (rb_node : VALUE) (sibling : Addr) (m : Mem)
    (h : NoSharedNode s ∧ Registered s) :
    NoSharedNode (sibling_state s rb_node sibling sibling m) ∧
      Registered (sibling_state s rb_node sibling sibling m) := by
  unfold sibling_state
  rw [if_neg (by simp)]
  exact invariant_decorate _ rb_node (invariant_congr s _ rfl rfl h)

theorem invariant_add_next_sibling (lib : LibXml2) (s : State) (self rb_node : VALUE)
    (s' : State) (h : NoSharedNode s ∧ Registered s)
    (hnc : (Op.add_next_sibling self rb_node).coalesces lib s = false)
    (hrun : (add_next_sibling lib s self rb_node).state? = some s') :
    NoSharedNode s' ∧ Registered s' := by
  rcases Data_Get_Struct_cases s self with ⟨node, hself⟩ | hp | hp
  · rcases Data_Get_Struct_cases s rb_node with ⟨sibling, hsib⟩ | hc | hc
    · simp only [Op.coalesces, hself, hsib, decide_eq_false_iff_not, not_and, ne_eq,
        not_not] at hnc
      by_cases hr : (lib.xmlAddNextSibling s.mem node sibling).1 = 0
      · rw [add_next_sibling_raise lib s self rb_node node sibling hself hsib hr] at hrun
        injection hrun with hrun
        subst hrun
        exact invariant_congr s _ rfl rfl h
      · rw [add_next_sibling_ok lib s self rb_node node sibling hself hsib hr, hnc hr] at hrun
        injection hrun with hrun
        subst hrun
        exact invariant_sibling_state s rb_node sibling _ h
    · have hs := (DATA_PTR_iff s self node).mp hself
      simp only [add_next_sibling, hs, hc, Outcome.state?] at hrun
      cases hrun
    · have hs := (DATA_PTR_iff s self node).mp hself
      simp only [add_next_sibling, hs, hc, Outcome.state?] at hrun
      injection hrun with hrun
      subst hrun
      exact h
  · simp only [add_next_sibling, hp, Outcome.state?] at hrun
    cases hrun
  · simp only [add_next_sibling, hp, Outcome.state?] at hrun
    injection hrun with hrun
    subst hrun
    exact h

theorem invariant_add_previous_sibling (lib : LibXml2) (s : State) (self rb_node : VALUE)
    (s' : State) (h : NoSharedNode s ∧ Registered s)
    (hnc : (Op.add_previous_sibling self rb_node).coalesces lib s = false)
    (hrun : (add_previous_sibling lib s self rb_node).state? = some s') :
    NoSharedNode s' ∧ Registered s' := by
  cases rb_node with
  | data id =>
    rcases Data_Get_Struct_cases s self with ⟨node, hself⟩ | hp | hp
    · rcases Data_Get_Struct_cases s (.data id) with ⟨sibling, hsib⟩ | hc | hc
      · simp only [Op.coalesces, hself, hsib, decide_eq_false_iff_not, not_and, ne_eq,
          not_not] at hnc
        by_cases hr : (lib.xmlAddPrevSibling s.mem node sibling).1 = 0
        · rw [add_previous_sibling_raise lib s self _ node sibling hself hsib hr] at hrun
          injection hrun with hrun
          subst hrun
          exact invariant_congr s _ rfl rfl h
        · rw [add_previous_sibling_ok lib s self _ node sibling hself hsib hr, hnc hr] at hrun
          injection hrun with hrun
          subst hrun
          exact invariant_sibling_state s _ sibling _ h
      · have hs := (DATA_PTR_iff s self node).mp hself
        simp only [add_previous_sibling, Check_Type_T_DATA, hs, hc, Outcome.state?] at hrun
        cases hrun
      · have hs := (DATA_PTR_iff s self node).mp hself
        simp only [add_previous_sibling, Check_Type_T_DATA, hs, hc, Outcome.state?] at hrun
        injection hrun with hrun
        subst hrun
        exact h
    · simp only [add_previous_sibling, Check_Type_T_DATA, hp, Outcome.state?] at hrun
      cases hrun
    · simp only [add_previous_sibling, Check_Type_T_DATA, hp, Outcome.state?] at hrun
      injection hrun with hrun
      subst hrun
      exact h
  | _ =>
    simp only [add_previous_sibling, Check_Type_T_DATA, Outcome.state?] at hrun
    injection hrun with hrun
    subst hrun
    exact h

theorem invariant_new (lib : LibXml2) (s : State) (name document : VALUE) (s' : State)
    (h : NoSharedNode s ∧ Registered s)
    (hnf : (Op.new name document).foreign lib s = false)
    (hrun : (new lib s name document).state? = some s') :
    NoSharedNode s' ∧ Registered s' := by
  rcases Data_Get_Struct_cases s document with ⟨doc, hdoc⟩ | hp | hp
  · have hd := (DATA_PTR_iff s document doc).mp hdoc
    cases name with
    | str nm =>
      simp only [new, hd] at hrun
      cases hm : (lib.xmlNewNode s.mem nm).2 (lib.xmlNewNode s.mem nm).1 with
      | none =>
        rw [hm] at hrun
        cases hrun
      | some n =>
        rw [hm] at hrun
        simp only at hrun
        simp only [Op.foreign, Op.wrap_site, hdoc, hm] at hnf
        refine invariant_wrap _ _ s' ?_ hnf hrun
        exact invariant_congr s _ rfl rfl h
    | _ =>
      simp only [new, hd, Outcome.state?] at hrun
      injection hrun with hrun
      subst hrun
      exact h
  · simp only [new, hp, Outcome.state?] at hrun
    cases hrun
  · simp only [new, hp, Outcome.state?] at hrun
    injection hrun with hrun
    subst hrun
    exact h

/-- `Op.wrap_site` is where the code calls `Nokogiri_wrap_xml_node`: a call that
has a wrap site ends as that call of `Nokogiri_wrap_xml_node` ends. -/
theorem run_at_wrap_site (lib : LibXml2) (s : State) (op : Op) (site : State × Addr)
    (h : op.wrap_site lib s = some site) :
    op.run lib s = (Nokogiri_wrap_xml_node site.1 site.2).state? := by
  cases op with
  | wrap node =>
    simp only [Op.wrap_site, Option.some.injEq] at h
    subst h
    rfl
  | new name document =>
    cases hD : DATA_PTR s document with
    | none => simp [Op.wrap_site, hD] at h
    | some doc =>
      have hd := (DATA_PTR_iff s document doc).mp hD
      cases name with
      | str nm =>
        simp only [Op.wrap_site, hD] at h
        cases hm : (lib.xmlNewNode s.mem nm).2 (lib.xmlNewNode s.mem nm).1 with
        | none =>
          rw [hm] at h
          cases h
        | some n =>
          rw [hm] at h
          simp only [Option.some.injEq] at h
          subst h
          simp only [Op.run, Nokogiri.new, hd, hm]
      | _ => simp [Op.wrap_site, hD] at h
  | add_child self child =>
    cases hS : DATA_PTR s self with
    | none => simp [Op.wrap_site, hS] at h
    | some parent =>
      cases hC : DATA_PTR s child with
      | none => simp [Op.wrap_site, hS, hC] at h
      | some node =>
        have hs := (DATA_PTR_iff s self parent).mp hS
        have hn := (DATA_PTR_iff s child node).mp hC
        simp only [Op.wrap_site, hS, hC] at h
        by_cases hr : (lib.xmlAddChild (lib.xmlUnlinkNode s.mem node) parent node).1 = 0
        · rw [if_pos hr] at h
          cases h
        · rw [if_neg hr] at h
          simp only [Option.some.injEq] at h
          subst h
          simp only [Op.run, add_child, hs, hn, hr, if_false]
  | add_next_sibling self rb_node => simp [Op.wrap_site] at h
  | add_previous_sibling self rb_node => simp [Op.wrap_site] at h

theorem invariant_step (lib : LibXml2) (s : State) (op : Op) (s' : State)
    (h : NoSharedNode s ∧ Registered s) (hnc : op.coalesces lib s = false)
    (hnf : op.foreign lib s = false)
    (hrun : op.run lib s = some s') : NoSharedNode s' ∧ Registered s' := by
  cases op with
  | new name document => exact invariant_new lib s name document s' h hnf hrun
  | wrap node => exact invariant_wrap s node s' h hnf hrun
  | add_child self child => exact invariant_add_child lib s self child s' h hnc hnf hrun
  | add_next_sibling self rb_node =>
    exact invariant_add_next_sibling lib s self rb_node s' h hnc hrun
  | add_previous_sibling self rb_node =>
    exact invariant_add_previous_sibling lib s self rb_node s' h hnc hrun

theorem invariant_run_ops (lib : LibXml2) (ops : List Op) (s s' : State)
    (h : NoSharedNode s ∧ Registered s) (hnc : never_coalesces lib s ops = true)
    (hnf : never_foreign lib s ops = true)
    (hrun : run_ops lib s ops = some s') : NoSharedNode s' ∧ Registered s' := by
  induction ops generalizing s with
  | nil =>
    simp only [run_ops] at hrun
    injection hrun with hrun
    subst hrun
    exact h
  | cons op rest ih =>
    simp only [run_ops] at hrun
    cases hop : op.run lib s with
    | none =>
      rw [hop] at hrun
      cases hrun
    | some s1 =>
      rw [hop] at hrun
      simp only [never_coalesces, hop, Bool.and_eq_true, Bool.not_eq_true'] at hnc
      simp only [never_foreign, hop, Bool.and_eq_true, Bool.not_eq_true'] at hnf
      exact ih s1 (invariant_step lib s op s1 h hnc.1 hnf.1 hop) hnc.2 hnf.2 hrun

theorem no_shared_node_list (l : List RData) (s : State) (hl : s.heap = l)
    (hnd : (l.map (fun o => o.data)).Nodup) : NoSharedNode s := by
  intro i j oi oj hi hj hdata
  rw [hl] at hi hj
  have hi' : (l.map (fun o => o.data))[i]? = some oi.data := by
    rw [List.getElem?_map, hi]
    rfl
  have hj' : (l.map (fun o => o.data))[j]? = some oi.data := by
    rw [List.getElem?_map, hj, hdata]
    rfl
  obtain ⟨hil, hie⟩ := List.getElem?_eq_some.mp hi'
  obtain ⟨hjl, hje⟩ := List.getElem?_eq_some.mp hj'
  exact (List.Nodup.getElem_inj_iff hnd).mp (hie.trans hje.symm)

theorem demo_state_initial : Initial demo_state := by
  refine ⟨?_, fun _ => rfl, no_shared_node_list _ demo_state rfl (by decide)⟩
  intro o ho
  simp only [demo_state, List.mem_singleton] at ho
  rw [ho]

theorem two_doc_state_initial : Initial two_doc_state := by
  refine ⟨?_, fun _ => rfl, no_shared_node_list _ two_doc_state rfl (by decide)⟩
  intro o ho
  simp only [two_doc_state, List.mem_cons, List.mem_singleton, List.not_mem_nil, or_false] at ho
  rcases ho with ho | ho <;> rw [ho]

/-- Two objects at different indices with the same `DATA_PTR` break the
invariant. -/
theorem shared_node (s : State) (i j : Nat) (oi oj : RData) (hi : s.heap[i]? = some oi)
    (hj : s.heap[j]? = some oj) (hdata : oi.data = oj.data) (hij : i ≠ j) : ¬ NoSharedNode s :=
  fun h => hij (h i j oi oj hi hj hdata)

theorem coalescing_run_heap :
    (run_ops model_lib demo_state coalescing_run).map (fun s => s.heap) =
      some [{ klass := .Document, data := 0x1000, document := .Qnil, decorated := 0 },
            { klass := .Element, data := 0x2000, document := .data 0, decorated := 1 },
            { klass := .Text, data := 0x3000, document := .data 0, decorated := 1 },
            { klass := .Text, data := 0x3000, document := .data 0, decorated := 1 }] := by
  decide

theorem document_run_heap :
    (run_ops model_lib demo_state document_run).map (fun s => s.heap) =
      some [{ klass := .Document, data := 0x1000, document := .Qnil, decorated := 0 },
            { klass := .Element, data := 0x2000, document := .data 0, decorated := 1 },
            { klass := .Node, data := 0x1000, document := .data 0, decorated := 1 }] := by
  decide

theorem move_run_heap :
    (run_ops model_lib two_doc_state move_run).map (fun s => s.heap) =
      some [{ klass := .Document, data := 0x1000, document := .Qnil, decorated := 0 },
            { klass := .Document, data := 0x6000, document := .Qnil, decorated := 0 },
            { klass := .Element, data := 0x2000, document := .data 0, decorated := 1 },
            { klass := .Element, data := 0x7000, document := .data 1, decorated := 1 },
            { klass := .Element, data := 0x2000, document := .data 1, decorated := 1 }] := by
  decide

/-- C3, refuted as stated, in three ways. Starting from the unwrapped document:
(1) wrapping the root, its text child and a detached text node and appending
the detached text node to the root, which the reference library coalesces into
the text child, leaves the wrappers `2` and `3` both referencing `0x3000`;
(2) with no coalescing at all, wrapping the document node, as `parent` of the
root does, builds a `Node` wrapper next to the Document wrapper, both
referencing `0x1000`; (3) with no coalescing either, appending the wrapped root
of one document to the root of another moves it to that document, whose cache
has no entry for it, so it is wrapped a second time. -/
theorem one_wrapper_per_node_fails :
    (¬ (∀ (lib : LibXml2) (s0 : State) (ops : List Op) (s : State),
        Initial s0 → run_ops lib s0 ops = some s → NoSharedNode s)) ∧
    (Initial demo_state ∧ never_foreign model_lib demo_state coalescing_run = true ∧
      ∃ s, run_ops model_lib demo_state coalescing_run = some s ∧ ¬ NoSharedNode s) ∧
    (Initial demo_state ∧ never_coalesces model_lib demo_state document_run = true ∧
      ∃ s, run_ops model_lib demo_state document_run = some s ∧ ¬ NoSharedNode s) ∧
    (Initial two_doc_state ∧ never_coalesces model_lib two_doc_state move_run = true ∧
      ∃ s, run_ops model_lib two_doc_state move_run = some s ∧ ¬ NoSharedNode s) := by
  have h1 : ∃ s, run_ops model_lib demo_state coalescing_run = some s ∧ ¬ NoSharedNode s := by
    have hheap := coalescing_run_heap
    cases hrun : run_ops model_lib demo_state coalescing_run with
    | none =>
      rw [hrun] at hheap
      cases hheap
    | some s =>
      rw [hrun] at hheap
      simp only [Option.map_some', Option.some.injEq] at hheap
      exact ⟨s, rfl, shared_node s 2 3
        { klass := .Text, data := 0x3000, document := .data 0, decorated := 1 }
        { klass := .Text, data := 0x3000, document := .data 0, decorated := 1 }
        (by rw [hheap]; rfl) (by rw [hheap]; rfl) rfl (by decide)⟩
  have h2 : ∃ s, run_ops model_lib demo_state document_run = some s ∧ ¬ NoSharedNode s := by
    have hheap := document_run_heap
    cases hrun : run_ops model_lib demo_state document_run with
    | none =>
      rw [hrun] at hheap
      cases hheap
    | some s =>
      rw [hrun] at hheap
      simp only [Option.map_some', Option.some.injEq] at hheap
      exact ⟨s, rfl, shared_node s 0 2
        { klass := .Document, data := 0x1000, document := .Qnil, decorated := 0 }
        { klass := .Node, data := 0x1000, document := .data 0, decorated := 1 }
        (by rw [hheap]; rfl) (by rw [hheap]; rfl) rfl (by decide)⟩
  have h3 : ∃ s, run_ops model_lib two_doc_state move_run = some s ∧ ¬ NoSharedNode s := by
    have hheap := move_run_heap
    cases hrun : run_ops model_lib two_doc_state move_run with
    | none =>
      rw [hrun] at hheap
      cases hheap
    | some s =>
      rw [hrun] at hheap
      simp only [Option.map_some', Option.some.injEq] at hheap
      exact ⟨s, rfl, shared_node s 2 4
        { klass := .Element, data := 0x2000, document := .data 0, decorated := 1 }
        { klass := .Element, data := 0x2000, document := .data 1, decorated := 1 }
        (by rw [hheap]; rfl) (by rw [hheap]; rfl) rfl (by decide)⟩
  refine ⟨?_, ⟨demo_state_initial, by decide, h1⟩, ⟨demo_state_initial, by decide, h2⟩,
    ⟨two_doc_state_initial, by decide, h3⟩⟩
  intro hall
  obtain ⟨s, hrun, hshared⟩ := h1
  exact hshared (hall model_lib demo_state coalescing_run s demo_state_initial hrun)

/-- C3, amended: in every state reached from a state that holds document
wrappers only, one per document, and empty caches, through `Node.new`,
`Nokogiri_wrap_xml_node`, `add_child`, `add_next_sibling` and
`add_previous_sibling`, as long as no insertion was coalesced by libxml2 into
another node and no call wrapped a node already referenced by a Document
wrapper or by a wrapper of another document, no two distinct wrappers reference
the same underlying node. -/
theorem one_wrapper_per_node_in_quiet_runs (lib : LibXml2) (s0 : State) (ops : List Op)
    (s : State) (hinit : Initial s0) (hnc : never_coalesces lib s0 ops = true)
    (hnf : never_foreign lib s0 ops = true)
    (hrun : run_ops lib s0 ops = some s) : NoSharedNode s :=
  (invariant_run_ops lib ops s0 s (invariant_initial s0 hinit) hnc hnf hrun).1

theorem one_wrapper_per_node_in_quiet_runs_witness :
    Initial demo_state ∧ never_coalesces model_lib demo_state quiet_run = true ∧
    never_foreign model_lib demo_state quiet_run = true ∧
    ∃ s, run_ops model_lib demo_state quiet_run = some s ∧ s.heap.length = 4 ∧
      NoSharedNode s := by
  have hlen : (run_ops model_lib demo_state quiet_run).map (fun s => s.heap.length) = some 4 := by
    decide
  cases hrun : run_ops model_lib demo_state quiet_run with
  | none =>
    rw [hrun] at hlen
    cases hlen
  | some s =>
    rw [hrun] at hlen
    simp only [Option.map_some', Option.some.injEq] at hlen
    exact ⟨demo_state_initial, by decide, by decide, s, rfl, hlen,
      one_wrapper_per_node_in_quiet_runs model_lib demo_state quiet_run s
        demo_state_initial (by decide) (by decide) hrun⟩

end Nokogiri
